import Mathlib

/-!
Shallow embedding of the `ParkPulseCommunity` Solidity contract
(proposal / vote / funding ledger state machine).

Modelling conventions:
* `address` is modelled as `Nat` (`Addr`), `uint64`/`uint256` as `Nat`.
  Solidity 0.8 checked arithmetic reverts on overflow and never wraps;
  amounts and counters are modelled as unbounded naturals since no claim
  here depends on the word-size bound.
* Every state-mutating entry point is a function
  `CState → args → Except Err CState` (or `Except Err (CState × ret)`).
  Returning `Except.error e` models a revert: the caller's state is
  unchanged.  `step` below realises exactly this transaction semantics.
* `require(cond, "msg")` becomes an `if` returning a constructor of `Err`
  named after the revert message; Solidity modifiers run in declaration
  order before the body, which the sequential `if`s reproduce.
* `block.timestamp` and `msg.sender` / `msg.value` are explicit arguments.
* The external value transfer in `withdrawFunds`
  (`recipient.call{value: amount\x7d("")`) is modelled by a boolean input
  `transferOk` saying whether the external call succeeded.
* Events are not modelled (they carry no ledger state).
-/

namespace ParkPulse

abbrev Addr := Nat

inductive ProposalStatus where
  | Active
  | Accepted
  | Declined
deriving DecidableEq, Repr

structure EnvironmentalData where
  ndviBefore : Nat
  ndviAfter : Nat
  pm25Before : Nat
  pm25After : Nat
  pm25IncreasePercent : Nat
  vegetationLossPercent : Nat
deriving DecidableEq, Repr

structure Demographics where
  children : Nat
  adults : Nat
  seniors : Nat
  totalAffectedPopulation : Nat
deriving DecidableEq, Repr

structure Donation where
  donor : Addr
  amount : Nat
  timestamp : Nat
deriving DecidableEq, Repr

structure Proposal where
  id : Nat
  parkName : String
  parkId : String
  description : String
  endDate : Nat
  status : ProposalStatus
  yesVotes : Nat
  noVotes : Nat
  environmentalData : EnvironmentalData
  demographics : Demographics
  creatorAccountId : String
  fundingGoal : Nat
  totalFundsRaised : Nat
  fundingEnabled : Bool
deriving DecidableEq, Repr

/-- The all-zero value a Solidity mapping returns for an unset key. -/
def Proposal.zero : Proposal :=
  { id := 0, parkName := "", parkId := "", description := "", endDate := 0,
    status := .Active, yesVotes := 0, noVotes := 0,
    environmentalData := ⟨0, 0, 0, 0, 0, 0⟩,
    demographics := ⟨0, 0, 0, 0⟩,
    creatorAccountId := "", fundingGoal := 0, totalFundsRaised := 0,
    fundingEnabled := false }

/-- Contract storage of `ParkPulseCommunity`: the mappings, the id counter
and the owner address. -/
structure CState where
  proposals : Nat → Proposal
  userVotes : Nat → Addr → Bool
  hasVoted : Nat → Addr → Bool
  proposalDonations : Nat → List Donation
  userDonationTotal : Nat → Addr → Nat
  proposalCounter : Nat
  owner : Addr

/-- One constructor per distinct `require` revert message of the contract. -/
inductive Err where
  | onlyOwner
  | proposalNotFound
  | proposalNotActive
  | alreadyVoted
  | votingEnded
  | emptyParkName
  | emptyParkId
  | emptyCreator
  | endDateNotFuture
  | votingNotEnded
  | proposalNotAccepted
  | fundingNotEnabled
  | zeroValue
  | noFundsToWithdraw
  | transferFailed
deriving DecidableEq, Repr

/-- Constructor: sets the deployer as owner, counter at 0, empty storage. -/
def initState (deployer : Addr) : CState :=
  { proposals := fun _ => Proposal.zero,
    userVotes := fun _ _ => false,
    hasVoted := fun _ _ => false,
    proposalDonations := fun _ => [],
    userDonationTotal := fun _ _ => 0,
    proposalCounter := 0,
    owner := deployer }

/-- `createProposal`: validates the text fields and the deadline, allocates
`proposalCounter + 1` as the id and stores a fresh `Active` proposal.  The
`fundraisingEnabled` argument is accepted but never read by the contract
body; `fundingEnabled` is always initialised to `false`. -/
def createProposal (s : CState) (parkName parkId description : String)
    (endDate : Nat) (environmentalData : EnvironmentalData)
    (demographics : Demographics) (creatorAccountId : String)
    (_fundraisingEnabled : Bool) (fundingGoal : Nat) (now : Nat) :
    Except Err (CState × Nat) :=
  if parkName.length = 0 then .error .emptyParkName
  else if parkId.length = 0 then .error .emptyParkId
  else if creatorAccountId.length = 0 then .error .emptyCreator
  else if ¬ (endDate > now) then .error .endDateNotFuture
  else
    let proposalId := s.proposalCounter + 1
    let p : Proposal :=
      { id := proposalId, parkName := parkName, parkId := parkId,
        description := description, endDate := endDate, status := .Active,
        yesVotes := 0, noVotes := 0,
        environmentalData := environmentalData,
        demographics := demographics,
        creatorAccountId := creatorAccountId, fundingGoal := fundingGoal,
        totalFundsRaised := 0, fundingEnabled := false }
    .ok ({ s with
            proposals := fun q => if q = proposalId then p else s.proposals q,
            proposalCounter := proposalId },
         proposalId)

/-- `vote`: guarded by the modifiers `proposalExists`, `proposalActive`,
`hasNotVoted`, `votingPeriodActive` in that order, then records the vote
and increments the matching tally. -/
def vote (s : CState) (proposalId : Nat) (voteValue : Bool) (voter : Addr)
    (now : Nat) : Except Err CState :=
  if (s.proposals proposalId).id = 0 then .error .proposalNotFound
  else if (s.proposals proposalId).status ≠ .Active then .error .proposalNotActive
  else if s.hasVoted proposalId voter then .error .alreadyVoted
  else if ¬ (now ≤ (s.proposals proposalId).endDate) then .error .votingEnded
  else
    let p := s.proposals proposalId
    let p' := if voteValue then { p with yesVotes := p.yesVotes + 1 }
              else { p with noVotes := p.noVotes + 1 }
    .ok { s with
          userVotes := fun q a =>
            if q = proposalId ∧ a = voter then voteValue else s.userVotes q a,
          hasVoted := fun q a =>
            if q = proposalId ∧ a = voter then true else s.hasVoted q a,
          proposals := fun q => if q = proposalId then p' else s.proposals q }

/-- `updateProposalStatus` (the spec's `resolveByDeadline`): owner-only, on
an existing `Active` proposal strictly past its deadline; `Accepted` iff
`yesVotes > noVotes` (else `Declined`), and an accepted proposal with a
positive funding goal gets `fundingEnabled := true`. -/
def updateProposalStatus (s : CState) (sender : Addr) (proposalId : Nat)
    (now : Nat) : Except Err CState :=
  if sender ≠ s.owner then .error .onlyOwner
  else if (s.proposals proposalId).id = 0 then .error .proposalNotFound
  else if (s.proposals proposalId).status ≠ .Active then .error .proposalNotActive
  else if ¬ (now > (s.proposals proposalId).endDate) then .error .votingNotEnded
  else
    let p := s.proposals proposalId
    let accepted := p.yesVotes > p.noVotes
    let p' := { p with
                status := if accepted then .Accepted else .Declined,
                fundingEnabled :=
                  if accepted ∧ p.fundingGoal > 0 then true
                  else p.fundingEnabled }
    .ok { s with proposals := fun q => if q = proposalId then p' else s.proposals q }

/-- `forceCloseProposal` (the spec's `forceResolve`): owner-only, on an
existing `Active` proposal; writes `newStatus` directly, and sets
`fundingEnabled := true` when the target is `Accepted` with a positive
funding goal. -/
def forceCloseProposal (s : CState) (sender : Addr) (proposalId : Nat)
    (newStatus : ProposalStatus) : Except Err CState :=
  if sender ≠ s.owner then .error .onlyOwner
  else if (s.proposals proposalId).id = 0 then .error .proposalNotFound
  else if (s.proposals proposalId).status ≠ .Active then .error .proposalNotActive
  else
    let p := s.proposals proposalId
    let p' := { p with
                status := newStatus,
                fundingEnabled :=
                  if newStatus = .Accepted ∧ p.fundingGoal > 0 then true
                  else p.fundingEnabled }
    .ok { s with proposals := fun q => if q = proposalId then p' else s.proposals q }

/-- `getTotalProposals`: returns the proposal counter. -/
def getTotalProposals (s : CState) : Nat :=
  s.proposalCounter

/-- `setFundingGoal`: owner-only, on an existing `Accepted` proposal;
overwrites `fundingGoal` (and touches nothing else). -/
def setFundingGoal (s : CState) (sender : Addr) (proposalId : Nat)
    (goal : Nat) : Except Err CState :=
  if sender ≠ s.owner then .error .onlyOwner
  else if (s.proposals proposalId).id = 0 then .error .proposalNotFound
  else if (s.proposals proposalId).status ≠ .Accepted then .error .proposalNotAccepted
  else
    let p := s.proposals proposalId
    let p' := { p with fundingGoal := goal }
    .ok { s with proposals := fun q => if q = proposalId then p' else s.proposals q }

/-- `donateToProposal`: payable; on an existing `Accepted` proposal with
funding enabled and a positive `msg.value`, appends a donation record and
adds the value to the per-donor total and to `totalFundsRaised`. -/
def donateToProposal (s : CState) (sender : Addr) (value : Nat) (now : Nat)
    (proposalId : Nat) : Except Err CState :=
  if (s.proposals proposalId).id = 0 then .error .proposalNotFound
  else if (s.proposals proposalId).status ≠ .Accepted then .error .proposalNotAccepted
  else if (s.proposals proposalId).fundingEnabled = false then .error .fundingNotEnabled
  else if ¬ (value > 0) then .error .zeroValue
  else
    let p := s.proposals proposalId
    let p' := { p with totalFundsRaised := p.totalFundsRaised + value }
    .ok { s with
          proposalDonations := fun q =>
            if q = proposalId then
              s.proposalDonations q ++ [⟨sender, value, now⟩]
            else s.proposalDonations q,
          userDonationTotal := fun q a =>
            if q = proposalId ∧ a = sender then
              s.userDonationTotal q a + value
            else s.userDonationTotal q a,
          proposals := fun q => if q = proposalId then p' else s.proposals q }

/-- `withdrawFunds`: owner-only, on an existing proposal with
`totalFundsRaised > 0`; zeroes the balance, then performs the external
transfer of the pre-withdrawal amount and reverts (`transferFailed`) if it
did not succeed — the revert undoes the zeroing.  Returns the transferred
amount alongside the new state. -/
def withdrawFunds (s : CState) (sender : Addr) (proposalId : Nat)
    (_recipient : Addr) (transferOk : Bool) : Except Err (CState × Nat) :=
  if sender ≠ s.owner then .error .onlyOwner
  else if (s.proposals proposalId).id = 0 then .error .proposalNotFound
  else if ¬ ((s.proposals proposalId).totalFundsRaised > 0) then
    .error .noFundsToWithdraw
  else
    let amount := (s.proposals proposalId).totalFundsRaised
    let p := s.proposals proposalId
    let p' := { p with totalFundsRaised := 0 }
    let s' : CState :=
      { s with proposals := fun q => if q = proposalId then p' else s.proposals q }
    if transferOk then .ok (s', amount) else .error .transferFailed

/-- `getDonationProgress`: view; for an existing proposal returns
`(raised, goal, percentage)` with
`percentage = goal > 0 ? (raised * 100) / goal : 0` (integer division). -/
def getDonationProgress (s : CState) (proposalId : Nat) :
    Except Err (Nat × Nat × Nat) :=
  if (s.proposals proposalId).id = 0 then .error .proposalNotFound
  else
    let raised := (s.proposals proposalId).totalFundsRaised
    let goal := (s.proposals proposalId).fundingGoal
    .ok (raised, goal, if goal > 0 then (raised * 100) / goal else 0)

/-! ## Transactions and traces

An `Op` is one external call to the contract with all its inputs
(including `msg.sender`, `msg.value`, `block.timestamp` and the outcome of
the external transfer where relevant).  `applyOp` runs it; `step` gives the
transaction semantics: a revert leaves the state unchanged. -/

inductive Op where
  | create (parkName parkId description : String) (endDate : Nat)
      (env : EnvironmentalData) (demo : Demographics) (creator : String)
      (fundraisingEnabled : Bool) (goal : Nat) (now : Nat)
  | castVote (proposalId : Nat) (voteValue : Bool) (voter : Addr) (now : Nat)
  | updateStatus (sender : Addr) (proposalId : Nat) (now : Nat)
  | forceClose (sender : Addr) (proposalId : Nat) (newStatus : ProposalStatus)
  | setGoal (sender : Addr) (proposalId : Nat) (goal : Nat)
  | donate (sender : Addr) (value : Nat) (now : Nat) (proposalId : Nat)
  | withdraw (sender : Addr) (proposalId : Nat) (recipient : Addr)
      (transferOk : Bool)

def applyOp (s : CState) : Op → Except Err CState
  | .create pn pid d ed env demo cr fe g now =>
      (createProposal s pn pid d ed env demo cr fe g now).map Prod.fst
  | .castVote p v voter now => vote s p v voter now
  | .updateStatus sender p now => updateProposalStatus s sender p now
  | .forceClose sender p st => forceCloseProposal s sender p st
  | .setGoal sender p g => setFundingGoal s sender p g
  | .donate sender v now p => donateToProposal s sender v now p
  | .withdraw sender p r ok => (withdrawFunds s sender p r ok).map Prod.fst

/-- Transaction semantics: a reverted call leaves the storage unchanged. -/
def step (s : CState) (op : Op) : CState :=
  match applyOp s op with
  | .ok s' => s'
  | .error _ => s

/-- Run a list of transactions from a state. -/
def execFrom (s : CState) : List Op → CState
  | [] => s
  | op :: ops => execFrom (step s op) ops

/-- Run a list of transactions from a freshly deployed contract. -/
def execTrace (deployer : Addr) (ops : List Op) : CState :=
  execFrom (initState deployer) ops

/-- Whether a transaction succeeds when run on `s`. -/
def opOk (s : CState) (op : Op) : Bool :=
  match applyOp s op with
  | .ok _ => true
  | .error _ => false

/-- The voters of the successful `vote` transactions on proposal `pid`
along a trace run from `s`, in order. -/
def succVoters (s : CState) (pid : Nat) : List Op → List Addr
  | [] => []
  | op :: ops =>
      let rest := succVoters (step s op) pid ops
      match op with
      | .castVote p _ voter _ =>
          if p = pid ∧ opOk s op then voter :: rest else rest
      | _ => rest

/-- The ids actually returned by the successful `createProposal`
transactions along a trace run from `s`, in order. -/
def createdIds (s : CState) : List Op → List Nat
  | [] => []
  | op :: ops =>
      let rest := createdIds (step s op) ops
      match op with
      | .create pn pi d ed env demo cr fe g now =>
          match createProposal s pn pi d ed env demo cr fe g now with
          | .ok (_, rid) => rid :: rest
          | .error _ => rest
      | _ => rest

/-- Number of successful `createProposal` transactions along a trace. -/
def createCount (s : CState) : List Op → Nat
  | [] => 0
  | op :: ops =>
      let rest := createCount (step s op) ops
      match op with
      | .create pn pi d ed env demo cr fe g now =>
          (match createProposal s pn pi d ed env demo cr fe g now with
           | .ok _ => 1
           | .error _ => 0) + rest
      | _ => rest

/-- Whether a transaction is a `createProposal` call. -/
def Op.isCreate : Op → Bool
  | .create _ _ _ _ _ _ _ _ _ _ => true
  | _ => false

/-- Run a list of donations `(donor, value, timestamp)` against one
proposal, stopping at the first revert. -/
def donateMany (s : CState) (pid : Nat) :
    List (Addr × Nat × Nat) → Except Err CState
  | [] => .ok s
  | (donor, value, now) :: ds =>
      match donateToProposal s donor value now pid with
      | .ok s' => donateMany s' pid ds
      | .error e => .error e

/-- Whether a donation batch runs through without a revert. -/
def donateManyOk (s : CState) (pid : Nat) (ds : List (Addr × Nat × Nat)) :
    Bool :=
  match donateMany s pid ds with
  | .ok _ => true
  | .error _ => false

/-- The state after a donation batch (the original state on a revert). -/
def donateManyState (s : CState) (pid : Nat)
    (ds : List (Addr × Nat × Nat)) : CState :=
  match donateMany s pid ds with
  | .ok s' => s'
  | .error _ => s

/-! Concrete transactions used to exercise the theorems below on a running
contract (deployer/owner address `0`, deployment time `0`). -/

/-- Creates proposal 1: deadline `100`, funding goal `50`. -/
def opOpen : Op :=
  .create "park" "p1" "greenway" 100 ⟨1, 2, 3, 4, 5, 6⟩ ⟨7, 8, 9, 10⟩
    "0.0.1001" false 50 0

/-- Creates a proposal with funding goal `0` (no goal). -/
def opOpenNoGoal : Op :=
  .create "meadow" "p2" "pond" 100 ⟨0, 0, 0, 0, 0, 0⟩ ⟨0, 0, 0, 0⟩
    "0.0.1002" true 0 0

/-- Proposal 1 created, one yes vote, resolved after the deadline:
`Accepted` with funding enabled. -/
def traceAccepted : List Op :=
  [opOpen, .castVote 1 true 11 10, .updateStatus 0 1 101]

/-- `traceAccepted`, then a donation of `30` from address `7`. -/
def traceFunded : List Op :=
  traceAccepted ++ [.donate 7 30 20 1]

/-- A proposal with no funding goal, force-closed to `Accepted`:
funding stays disabled. -/
def traceAcceptedNoGoal : List Op :=
  [opOpenNoGoal, .forceClose 0 1 .Accepted]

/-! ## The core state invariant -/

/-- Invariants of every reachable contract state: stored ids match the
mapping key and stay within the counter range, unset slots are zero, votes
are only recorded for existing proposals, and funding is mutually
exclusive with the `Active` status (`Active → ¬fundingEnabled` and
`fundingEnabled → Accepted`). -/
def Inv (s : CState) : Prop :=
  (∀ pid, pid > s.proposalCounter → s.proposals pid = Proposal.zero) ∧
  (∀ pid, (s.proposals pid).id ≠ 0 →
      (s.proposals pid).id = pid ∧ 1 ≤ pid ∧ pid ≤ s.proposalCounter) ∧
  (∀ pid a, s.hasVoted pid a = true → (s.proposals pid).id ≠ 0) ∧
  (∀ pid, (s.proposals pid).status = .Active →
      (s.proposals pid).fundingEnabled = false) ∧
  (∀ pid, (s.proposals pid).fundingEnabled = true →
      (s.proposals pid).status = .Accepted)

theorem inv_init (deployer : Addr) : Inv (initState deployer) := by
  refine ⟨?_, ?_, ?_, ?_, ?_⟩ <;> intro pid <;>
    simp [initState, Proposal.zero]

/-- Updating one existing slot with a proposal that keeps the same id and
respects the funding/status exclusivity preserves `Inv`, as long as the
counter is unchanged and `hasVoted` only grew at that slot. -/
lemma inv_of_slot_update (s s' : CState) (pid : Nat) (p' : Proposal)
    (hs : Inv s)
    (hprop : s'.proposals = fun q => if q = pid then p' else s.proposals q)
    (hcounter : s'.proposalCounter = s.proposalCounter)
    (hhv : ∀ q a, s'.hasVoted q a = true → s.hasVoted q a = true ∨ q = pid)
    (hex : (s.proposals pid).id ≠ 0)
    (hid : p'.id = (s.proposals pid).id)
    (hact : p'.status = .Active → p'.fundingEnabled = false)
    (hfe : p'.fundingEnabled = true → p'.status = .Accepted) :
    Inv s' := by
  obtain ⟨i1, i2, i3, i4, i5⟩ := hs
  obtain ⟨hid0, h1le, hlec⟩ := i2 pid hex
  have ep : s'.proposals pid = p' := by rw [hprop]; simp
  have eo : ∀ q, q ≠ pid → s'.proposals q = s.proposals q := by
    intro q hqp; rw [hprop]; simp [hqp]
  refine ⟨?_, ?_, ?_, ?_, ?_⟩
  · intro q hq
    rw [hcounter] at hq
    have hqp : q ≠ pid := by omega
    rw [eo q hqp]
    exact i1 q hq
  · intro q hq
    rw [hcounter]
    by_cases hqp : q = pid
    · subst hqp
      rw [ep] at hq ⊢
      rw [hid, hid0]
      exact ⟨rfl, h1le, hlec⟩
    · rw [eo q hqp] at hq ⊢
      exact i2 q hq
  · intro q a hq
    by_cases hqp : q = pid
    · subst hqp
      rw [ep, hid]
      exact hex
    · rw [eo q hqp]
      rcases hhv q a hq with hold | hqp'
      · exact i3 q a hold
      · exact absurd hqp' hqp
  · intro q hq
    by_cases hqp : q = pid
    · subst hqp
      rw [ep] at hq ⊢
      exact hact hq
    · rw [eo q hqp] at hq ⊢
      exact i4 q hq
  · intro q hq
    by_cases hqp : q = pid
    · subst hqp
      rw [ep] at hq ⊢
      exact hfe hq
    · rw [eo q hqp] at hq ⊢
      exact i5 q hq

lemma inv_createProposal (s s' : CState) (pn pi d : String) (ed : Nat)
    (env : EnvironmentalData) (demo : Demographics) (cr : String) (fe : Bool)
    (g : Nat) (now : Nat) (rid : Nat) (hs : Inv s)
    (h : createProposal s pn pi d ed env demo cr fe g now = .ok (s', rid)) :
    Inv s' := by
  obtain ⟨i1, i2, i3, i4, i5⟩ := hs
  unfold createProposal at h
  split_ifs at h with h1 h2 h3 h4
  simp only [Except.ok.injEq, Prod.mk.injEq] at h
  obtain ⟨hst, -⟩ := h
  subst hst
  refine ⟨?_, ?_, ?_, ?_, ?_⟩
  · intro q hq
    simp only at hq ⊢
    have hqp : q ≠ s.proposalCounter + 1 := by omega
    rw [if_neg hqp]
    exact i1 q (by omega)
  · intro q hq
    simp only at hq ⊢
    by_cases hqp : q = s.proposalCounter + 1
    · rw [if_pos hqp] at hq ⊢
      exact ⟨hqp.symm, by omega, by omega⟩
    · rw [if_neg hqp] at hq ⊢
      obtain ⟨ha, hb, hc⟩ := i2 q hq
      exact ⟨ha, hb, by omega⟩
  · intro q a hq
    simp only at hq ⊢
    have hold := i3 q a hq
    obtain ⟨-, -, hc⟩ := i2 q hold
    have hqp : q ≠ s.proposalCounter + 1 := by omega
    rw [if_neg hqp]
    exact hold
  · intro q hq
    simp only at hq ⊢
    by_cases hqp : q = s.proposalCounter + 1
    · rw [if_pos hqp]
    · rw [if_neg hqp] at hq ⊢
      exact i4 q hq
  · intro q hq
    simp only at hq ⊢
    by_cases hqp : q = s.proposalCounter + 1
    · rw [if_pos hqp] at hq
      exact absurd hq (by simp)
    · rw [if_neg hqp] at hq ⊢
      exact i5 q hq

lemma inv_vote (s s' : CState) (pid : Nat) (v : Bool) (voter : Addr)
    (now : Nat) (hs : Inv s) (h : vote s pid v voter now = .ok s') :
    Inv s' := by
  unfold vote at h
  split_ifs at h with h1 h2 h3 h4 hv <;>
  · simp only [Except.ok.injEq] at h
    subst h
    have hst : (s.proposals pid).status = .Active := not_not.mp h2
    refine inv_of_slot_update s _ pid _ hs rfl rfl ?_ h1 ?_ ?_ ?_
    · intro q a hq
      by_cases hc : q = pid ∧ a = voter
      · exact Or.inr hc.1
      · simp only [hc, if_false] at hq
        exact Or.inl hq
    · simp
    · intro _
      simpa using hs.2.2.2.1 pid hst
    · intro hfe'
      have hacc := hs.2.2.2.2 pid (by simpa using hfe')
      simp [hst] at hacc

lemma inv_updateProposalStatus (s s' : CState) (sender : Addr) (pid : Nat)
    (now : Nat) (hs : Inv s)
    (h : updateProposalStatus s sender pid now = .ok s') : Inv s' := by
  unfold updateProposalStatus at h
  split_ifs at h with h1 h2 h3 h4
  simp only [Except.ok.injEq] at h
  subst h
  have hst : (s.proposals pid).status = .Active := not_not.mp h3
  refine inv_of_slot_update s _ pid _ hs rfl rfl ?_ h2 ?_ ?_ ?_
  · intro q a hq
    exact Or.inl hq
  · simp
  · intro hact
    by_cases hacc : (s.proposals pid).yesVotes > (s.proposals pid).noVotes <;>
      simp [hacc] at hact
  · intro hfe'
    by_cases hc : (s.proposals pid).yesVotes > (s.proposals pid).noVotes ∧
        (s.proposals pid).fundingGoal > 0
    · simp [hc, hc.1]
    · simp only [hc, if_false] at hfe'
      have hacc := hs.2.2.2.2 pid hfe'
      simp [hst] at hacc

lemma inv_forceCloseProposal (s s' : CState) (sender : Addr) (pid : Nat)
    (newStatus : ProposalStatus) (hs : Inv s)
    (h : forceCloseProposal s sender pid newStatus = .ok s') : Inv s' := by
  unfold forceCloseProposal at h
  split_ifs at h with h1 h2 h3
  simp only [Except.ok.injEq] at h
  subst h
  have hst : (s.proposals pid).status = .Active := not_not.mp h3
  refine inv_of_slot_update s _ pid _ hs rfl rfl ?_ h2 ?_ ?_ ?_
  · intro q a hq
    exact Or.inl hq
  · simp
  · intro hact
    simp only at hact
    subst hact
    have hc : ¬ (ProposalStatus.Active = ProposalStatus.Accepted ∧
        (s.proposals pid).fundingGoal > 0) := by simp
    simp only [hc, if_false]
    exact hs.2.2.2.1 pid hst
  · intro hfe'
    by_cases hc : newStatus = ProposalStatus.Accepted ∧
        (s.proposals pid).fundingGoal > 0
    · simp [hc.1]
    · simp only [hc, if_false] at hfe'
      have hacc := hs.2.2.2.2 pid hfe'
      simp [hst] at hacc

lemma inv_setFundingGoal (s s' : CState) (sender : Addr) (pid : Nat)
    (goal : Nat) (hs : Inv s) (h : setFundingGoal s sender pid goal = .ok s') :
    Inv s' := by
  unfold setFundingGoal at h
  split_ifs at h with h1 h2 h3
  simp only [Except.ok.injEq] at h
  subst h
  have hst : (s.proposals pid).status = .Accepted := not_not.mp h3
  refine inv_of_slot_update s _ pid _ hs rfl rfl ?_ h2 ?_ ?_ ?_
  · intro q a hq
    exact Or.inl hq
  · simp
  · intro hact
    simp only at hact
    simp [hst] at hact
  · intro _
    simpa using hst

lemma inv_donateToProposal (s s' : CState) (sender : Addr) (value : Nat)
    (now : Nat) (pid : Nat) (hs : Inv s)
    (h : donateToProposal s sender value now pid = .ok s') : Inv s' := by
  unfold donateToProposal at h
  split_ifs at h with h1 h2 h3 h4
  simp only [Except.ok.injEq] at h
  subst h
  have hst : (s.proposals pid).status = .Accepted := not_not.mp h2
  refine inv_of_slot_update s _ pid _ hs rfl rfl ?_ h1 ?_ ?_ ?_
  · intro q a hq
    exact Or.inl hq
  · simp
  · intro hact
    simp only at hact
    simp [hst] at hact
  · intro _
    simpa using hst

lemma inv_withdrawFunds (s s' : CState) (sender : Addr) (pid : Nat)
    (recipient : Addr) (transferOk : Bool) (amt : Nat) (hs : Inv s)
    (h : withdrawFunds s sender pid recipient transferOk = .ok (s', amt)) :
    Inv s' := by
  unfold withdrawFunds at h
  split_ifs at h with h1 h2 h3 h4
  simp only [Except.ok.injEq, Prod.mk.injEq] at h
  obtain ⟨hst', -⟩ := h
  subst hst'
  refine inv_of_slot_update s _ pid _ hs rfl rfl ?_ h2 ?_ ?_ ?_
  · intro q a hq
    exact Or.inl hq
  · simp
  · intro hact
    simp only at hact
    exact hs.2.2.2.1 pid hact
  · intro hfe'
    simp only at hfe'
    exact hs.2.2.2.2 pid hfe'

/-- Every successful transaction preserves the state invariant. -/
lemma inv_applyOp (s s' : CState) (op : Op) (hs : Inv s)
    (h : applyOp s op = .ok s') : Inv s' := by
  cases op with
  | create pn pid d ed env demo cr fe g now =>
      simp only [applyOp, Except.map] at h
      cases hcp : createProposal s pn pid d ed env demo cr fe g now with
      | error e => rw [hcp] at h; exact Except.noConfusion h
      | ok pr =>
          rw [hcp] at h
          simp only [Except.ok.injEq] at h
          obtain ⟨a, b⟩ := pr
          exact inv_createProposal s s' pn pid d ed env demo cr fe g now b hs
            (by rw [hcp]; simp only at h; rw [h])
  | castVote p v voter now => exact inv_vote s s' p v voter now hs h
  | updateStatus sender p now =>
      exact inv_updateProposalStatus s s' sender p now hs h
  | forceClose sender p st =>
      exact inv_forceCloseProposal s s' sender p st hs h
  | setGoal sender p g => exact inv_setFundingGoal s s' sender p g hs h
  | donate sender v now p => exact inv_donateToProposal s s' sender v now p hs h
  | withdraw sender p r ok =>
      simp only [applyOp, Except.map] at h
      cases hcp : withdrawFunds s sender p r ok with
      | error e => rw [hcp] at h; exact Except.noConfusion h
      | ok pr =>
          rw [hcp] at h
          simp only [Except.ok.injEq] at h
          obtain ⟨a, b⟩ := pr
          exact inv_withdrawFunds s s' sender p r ok b hs
            (by rw [hcp]; simp only at h; rw [h])

/-- The transaction semantics preserves the state invariant. -/
lemma inv_step (s : CState) (op : Op) (hs : Inv s) : Inv (step s op) := by
  unfold step
  cases h : applyOp s op with
  | ok s' => exact inv_applyOp s s' op hs h
  | error e => exact hs

lemma inv_execFrom (s : CState) (ops : List Op) (hs : Inv s) :
    Inv (execFrom s ops) := by
  induction ops generalizing s with
  | nil => exact hs
  | cons op ops ih => exact ih (step s op) (inv_step s op hs)

/-- Every reachable state of the contract satisfies the invariant. -/
theorem inv_execTrace (deployer : Addr) (ops : List Op) :
    Inv (execTrace deployer ops) :=
  inv_execFrom (initState deployer) ops (inv_init deployer)

/-! ## Success-shape lemmas: what each successful call requires and does -/

lemma createProposal_ok_shape (s s' : CState) (pn pi d : String) (ed : Nat)
    (env : EnvironmentalData) (demo : Demographics) (cr : String) (fe : Bool)
    (g : Nat) (now : Nat) (rid : Nat)
    (h : createProposal s pn pi d ed env demo cr fe g now = .ok (s', rid)) :
    rid = s.proposalCounter + 1 ∧
    s'.proposalCounter = s.proposalCounter + 1 ∧
    s'.hasVoted = s.hasVoted ∧
    s'.proposalDonations = s.proposalDonations ∧
    s'.userDonationTotal = s.userDonationTotal ∧
    s'.owner = s.owner ∧
    (∀ q, q ≠ s.proposalCounter + 1 → s'.proposals q = s.proposals q) ∧
    s'.proposals (s.proposalCounter + 1) =
      { id := s.proposalCounter + 1, parkName := pn, parkId := pi,
        description := d, endDate := ed, status := .Active, yesVotes := 0,
        noVotes := 0, environmentalData := env, demographics := demo,
        creatorAccountId := cr, fundingGoal := g, totalFundsRaised := 0,
        fundingEnabled := false } ∧
    pn.length ≠ 0 ∧ pi.length ≠ 0 ∧ cr.length ≠ 0 ∧ ed > now := by
  unfold createProposal at h
  have h1 : pn.length ≠ 0 := by
    intro hc; rw [if_pos hc] at h; exact Except.noConfusion h
  rw [if_neg h1] at h
  have h2 : pi.length ≠ 0 := by
    intro hc; rw [if_pos hc] at h; exact Except.noConfusion h
  rw [if_neg h2] at h
  have h3 : cr.length ≠ 0 := by
    intro hc; rw [if_pos hc] at h; exact Except.noConfusion h
  rw [if_neg h3] at h
  have h4 : ed > now := by
    by_contra hc
    rw [if_pos hc] at h
    exact Except.noConfusion h
  rw [if_neg (not_not_intro h4)] at h
  simp only [Except.ok.injEq, Prod.mk.injEq] at h
  obtain ⟨hst, hrid⟩ := h
  subst hst
  refine ⟨hrid.symm, rfl, rfl, rfl, rfl, rfl, ?_, ?_, h1, h2, h3, h4⟩
  · intro q hq
    simp [hq]
  · simp

lemma vote_ok_shape (s s' : CState) (pid : Nat) (v : Bool) (voter : Addr)
    (now : Nat) (h : vote s pid v voter now = .ok s') :
    (s.proposals pid).id ≠ 0 ∧
    (s.proposals pid).status = .Active ∧
    s.hasVoted pid voter = false ∧
    now ≤ (s.proposals pid).endDate ∧
    (∀ q, q ≠ pid → s'.proposals q = s.proposals q) ∧
    (s'.proposals pid).yesVotes + (s'.proposals pid).noVotes =
      (s.proposals pid).yesVotes + (s.proposals pid).noVotes + 1 ∧
    (s'.proposals pid).id = (s.proposals pid).id ∧
    (s'.proposals pid).status = (s.proposals pid).status ∧
    (s'.proposals pid).endDate = (s.proposals pid).endDate ∧
    (s'.proposals pid).fundingGoal = (s.proposals pid).fundingGoal ∧
    (s'.proposals pid).totalFundsRaised = (s.proposals pid).totalFundsRaised ∧
    (s'.proposals pid).fundingEnabled = (s.proposals pid).fundingEnabled ∧
    (∀ q a, s'.hasVoted q a =
      if q = pid ∧ a = voter then true else s.hasVoted q a) ∧
    s'.proposalDonations = s.proposalDonations ∧
    s'.userDonationTotal = s.userDonationTotal ∧
    s'.proposalCounter = s.proposalCounter ∧
    s'.owner = s.owner := by
  unfold vote at h
  have h1 : (s.proposals pid).id ≠ 0 := by
    intro hc; rw [if_pos hc] at h; exact Except.noConfusion h
  rw [if_neg h1] at h
  have h2 : (s.proposals pid).status = .Active := by
    by_contra hc
    rw [if_pos hc] at h
    exact Except.noConfusion h
  rw [if_neg (not_not_intro h2)] at h
  have h3 : s.hasVoted pid voter = false := by
    cases hc : s.hasVoted pid voter
    · rfl
    · rw [if_pos hc] at h; exact Except.noConfusion h
  rw [if_neg (by simp [h3])] at h
  have h4 : now ≤ (s.proposals pid).endDate := by
    by_contra hc
    rw [if_pos hc] at h
    exact Except.noConfusion h
  rw [if_neg (not_not_intro h4)] at h
  simp only [Except.ok.injEq] at h
  subst h
  refine ⟨h1, h2, h3, h4, ?_, ?_, ?_, ?_, ?_, ?_, ?_, ?_, ?_, rfl, rfl, rfl, rfl⟩
  · intro q hq
    simp [hq]
  all_goals try (cases v <;> simp <;> omega)

lemma updateProposalStatus_ok_shape (s s' : CState) (sender : Addr)
    (pid : Nat) (now : Nat)
    (h : updateProposalStatus s sender pid now = .ok s') :
    sender = s.owner ∧
    (s.proposals pid).id ≠ 0 ∧
    (s.proposals pid).status = .Active ∧
    now > (s.proposals pid).endDate ∧
    (∀ q, q ≠ pid → s'.proposals q = s.proposals q) ∧
    (s'.proposals pid).status =
      (if (s.proposals pid).yesVotes > (s.proposals pid).noVotes
       then ProposalStatus.Accepted else ProposalStatus.Declined) ∧
    (s'.proposals pid).fundingEnabled =
      (if (s.proposals pid).yesVotes > (s.proposals pid).noVotes ∧
          (s.proposals pid).fundingGoal > 0
       then true else (s.proposals pid).fundingEnabled) ∧
    (s'.proposals pid).yesVotes = (s.proposals pid).yesVotes ∧
    (s'.proposals pid).noVotes = (s.proposals pid).noVotes ∧
    (s'.proposals pid).id = (s.proposals pid).id ∧
    (s'.proposals pid).endDate = (s.proposals pid).endDate ∧
    (s'.proposals pid).fundingGoal = (s.proposals pid).fundingGoal ∧
    (s'.proposals pid).totalFundsRaised = (s.proposals pid).totalFundsRaised ∧
    s'.hasVoted = s.hasVoted ∧
    s'.userVotes = s.userVotes ∧
    s'.proposalDonations = s.proposalDonations ∧
    s'.userDonationTotal = s.userDonationTotal ∧
    s'.proposalCounter = s.proposalCounter ∧
    s'.owner = s.owner := by
  unfold updateProposalStatus at h
  have h1 : sender = s.owner := by
    by_contra hc
    rw [if_pos hc] at h
    exact Except.noConfusion h
  rw [if_neg (not_not_intro h1)] at h
  have h2 : (s.proposals pid).id ≠ 0 := by
    intro hc; rw [if_pos hc] at h; exact Except.noConfusion h
  rw [if_neg h2] at h
  have h3 : (s.proposals pid).status = .Active := by
    by_contra hc
    rw [if_pos hc] at h
    exact Except.noConfusion h
  rw [if_neg (not_not_intro h3)] at h
  have h4 : now > (s.proposals pid).endDate := by
    by_contra hc
    rw [if_pos hc] at h
    exact Except.noConfusion h
  rw [if_neg (not_not_intro h4)] at h
  simp only [Except.ok.injEq] at h
  subst h
  refine ⟨h1, h2, h3, h4, ?_, ?_, ?_, ?_, ?_, ?_, ?_, ?_, ?_,
    rfl, rfl, rfl, rfl, rfl, rfl⟩
  · intro q hq
    simp [hq]
  all_goals simp

lemma forceCloseProposal_ok_shape (s s' : CState) (sender : Addr) (pid : Nat)
    (newStatus : ProposalStatus)
    (h : forceCloseProposal s sender pid newStatus = .ok s') :
    sender = s.owner ∧
    (s.proposals pid).id ≠ 0 ∧
    (s.proposals pid).status = .Active ∧
    (∀ q, q ≠ pid → s'.proposals q = s.proposals q) ∧
    (s'.proposals pid).status = newStatus ∧
    (s'.proposals pid).fundingEnabled =
      (if newStatus = ProposalStatus.Accepted ∧
          (s.proposals pid).fundingGoal > 0
       then true else (s.proposals pid).fundingEnabled) ∧
    (s'.proposals pid).yesVotes = (s.proposals pid).yesVotes ∧
    (s'.proposals pid).noVotes = (s.proposals pid).noVotes ∧
    (s'.proposals pid).id = (s.proposals pid).id ∧
    (s'.proposals pid).endDate = (s.proposals pid).endDate ∧
    (s'.proposals pid).fundingGoal = (s.proposals pid).fundingGoal ∧
    (s'.proposals pid).totalFundsRaised = (s.proposals pid).totalFundsRaised ∧
    s'.hasVoted = s.hasVoted ∧
    s'.userVotes = s.userVotes ∧
    s'.proposalDonations = s.proposalDonations ∧
    s'.userDonationTotal = s.userDonationTotal ∧
    s'.proposalCounter = s.proposalCounter ∧
    s'.owner = s.owner := by
  unfold forceCloseProposal at h
  have h1 : sender = s.owner := by
    by_contra hc
    rw [if_pos hc] at h
    exact Except.noConfusion h
  rw [if_neg (not_not_intro h1)] at h
  have h2 : (s.proposals pid).id ≠ 0 := by
    intro hc; rw [if_pos hc] at h; exact Except.noConfusion h
  rw [if_neg h2] at h
  have h3 : (s.proposals pid).status = .Active := by
    by_contra hc
    rw [if_pos hc] at h
    exact Except.noConfusion h
  rw [if_neg (not_not_intro h3)] at h
  simp only [Except.ok.injEq] at h
  subst h
  refine ⟨h1, h2, h3, ?_, ?_, ?_, ?_, ?_, ?_, ?_, ?_, ?_,
    rfl, rfl, rfl, rfl, rfl, rfl⟩
  · intro q hq
    simp [hq]
  all_goals simp

lemma setFundingGoal_ok_shape (s s' : CState) (sender : Addr) (pid : Nat)
    (goal : Nat) (h : setFundingGoal s sender pid goal = .ok s') :
    sender = s.owner ∧
    (s.proposals pid).id ≠ 0 ∧
    (s.proposals pid).status = .Accepted ∧
    (∀ q, q ≠ pid → s'.proposals q = s.proposals q) ∧
    (s'.proposals pid).fundingGoal = goal ∧
    (s'.proposals pid).status = (s.proposals pid).status ∧
    (s'.proposals pid).fundingEnabled = (s.proposals pid).fundingEnabled ∧
    (s'.proposals pid).yesVotes = (s.proposals pid).yesVotes ∧
    (s'.proposals pid).noVotes = (s.proposals pid).noVotes ∧
    (s'.proposals pid).id = (s.proposals pid).id ∧
    (s'.proposals pid).endDate = (s.proposals pid).endDate ∧
    (s'.proposals pid).totalFundsRaised = (s.proposals pid).totalFundsRaised ∧
    s'.hasVoted = s.hasVoted ∧
    s'.userVotes = s.userVotes ∧
    s'.proposalDonations = s.proposalDonations ∧
    s'.userDonationTotal = s.userDonationTotal ∧
    s'.proposalCounter = s.proposalCounter ∧
    s'.owner = s.owner := by
  unfold setFundingGoal at h
  have h1 : sender = s.owner := by
    by_contra hc
    rw [if_pos hc] at h
    exact Except.noConfusion h
  rw [if_neg (not_not_intro h1)] at h
  have h2 : (s.proposals pid).id ≠ 0 := by
    intro hc; rw [if_pos hc] at h; exact Except.noConfusion h
  rw [if_neg h2] at h
  have h3 : (s.proposals pid).status = .Accepted := by
    by_contra hc
    rw [if_pos hc] at h
    exact Except.noConfusion h
  rw [if_neg (not_not_intro h3)] at h
  simp only [Except.ok.injEq] at h
  subst h
  refine ⟨h1, h2, h3, ?_, ?_, ?_, ?_, ?_, ?_, ?_, ?_, ?_,
    rfl, rfl, rfl, rfl, rfl, rfl⟩
  · intro q hq
    simp [hq]
  all_goals simp

lemma donateToProposal_ok_shape (s s' : CState) (sender : Addr) (value : Nat)
    (now : Nat) (pid : Nat)
    (h : donateToProposal s sender value now pid = .ok s') :
    (s.proposals pid).id ≠ 0 ∧
    (s.proposals pid).status = .Accepted ∧
    (s.proposals pid).fundingEnabled = true ∧
    value > 0 ∧
    (∀ q, q ≠ pid → s'.proposals q = s.proposals q) ∧
    (s'.proposals pid).totalFundsRaised =
      (s.proposals pid).totalFundsRaised + value ∧
    (s'.proposals pid).status = (s.proposals pid).status ∧
    (s'.proposals pid).fundingEnabled = (s.proposals pid).fundingEnabled ∧
    (s'.proposals pid).fundingGoal = (s.proposals pid).fundingGoal ∧
    (s'.proposals pid).yesVotes = (s.proposals pid).yesVotes ∧
    (s'.proposals pid).noVotes = (s.proposals pid).noVotes ∧
    (s'.proposals pid).id = (s.proposals pid).id ∧
    (s'.proposals pid).endDate = (s.proposals pid).endDate ∧
    s'.proposalDonations pid =
      s.proposalDonations pid ++ [⟨sender, value, now⟩] ∧
    (∀ q, q ≠ pid → s'.proposalDonations q = s.proposalDonations q) ∧
    s'.userDonationTotal pid sender =
      s.userDonationTotal pid sender + value ∧
    (∀ q a, ¬(q = pid ∧ a = sender) →
      s'.userDonationTotal q a = s.userDonationTotal q a) ∧
    s'.hasVoted = s.hasVoted ∧
    s'.userVotes = s.userVotes ∧
    s'.proposalCounter = s.proposalCounter ∧
    s'.owner = s.owner := by
  unfold donateToProposal at h
  have h1 : (s.proposals pid).id ≠ 0 := by
    intro hc; rw [if_pos hc] at h; exact Except.noConfusion h
  rw [if_neg h1] at h
  have h2 : (s.proposals pid).status = .Accepted := by
    by_contra hc
    rw [if_pos hc] at h
    exact Except.noConfusion h
  rw [if_neg (not_not_intro h2)] at h
  have h3 : (s.proposals pid).fundingEnabled = true := by
    cases hc : (s.proposals pid).fundingEnabled
    · rw [if_pos hc] at h; exact Except.noConfusion h
    · rfl
  rw [if_neg (by simp [h3])] at h
  have h4 : value > 0 := by
    by_contra hc
    rw [if_pos hc] at h
    exact Except.noConfusion h
  rw [if_neg (not_not_intro h4)] at h
  simp only [Except.ok.injEq] at h
  subst h
  refine ⟨h1, h2, h3, h4, ?_, ?_, ?_, ?_, ?_, ?_, ?_, ?_, ?_, ?_, ?_, ?_, ?_,
    rfl, rfl, rfl, rfl⟩
  · intro q hq
    simp [hq]
  · simp
  · simp
  · simp
  · simp
  · simp
  · simp
  · simp
  · simp
  · simp
  · intro q hq
    simp [hq]
  · simp
  · intro q a hqa
    simp [hqa]

lemma withdrawFunds_ok_shape (s s' : CState) (sender : Addr) (pid : Nat)
    (recipient : Addr) (transferOk : Bool) (amt : Nat)
    (h : withdrawFunds s sender pid recipient transferOk = .ok (s', amt)) :
    sender = s.owner ∧
    (s.proposals pid).id ≠ 0 ∧
    (s.proposals pid).totalFundsRaised > 0 ∧
    transferOk = true ∧
    amt = (s.proposals pid).totalFundsRaised ∧
    (∀ q, q ≠ pid → s'.proposals q = s.proposals q) ∧
    (s'.proposals pid).totalFundsRaised = 0 ∧
    (s'.proposals pid).status = (s.proposals pid).status ∧
    (s'.proposals pid).fundingEnabled = (s.proposals pid).fundingEnabled ∧
    (s'.proposals pid).fundingGoal = (s.proposals pid).fundingGoal ∧
    (s'.proposals pid).yesVotes = (s.proposals pid).yesVotes ∧
    (s'.proposals pid).noVotes = (s.proposals pid).noVotes ∧
    (s'.proposals pid).id = (s.proposals pid).id ∧
    (s'.proposals pid).endDate = (s.proposals pid).endDate ∧
    s'.hasVoted = s.hasVoted ∧
    s'.userVotes = s.userVotes ∧
    s'.proposalDonations = s.proposalDonations ∧
    s'.userDonationTotal = s.userDonationTotal ∧
    s'.proposalCounter = s.proposalCounter ∧
    s'.owner = s.owner := by
  unfold withdrawFunds at h
  have h1 : sender = s.owner := by
    by_contra hc
    rw [if_pos hc] at h
    exact Except.noConfusion h
  rw [if_neg (not_not_intro h1)] at h
  have h2 : (s.proposals pid).id ≠ 0 := by
    intro hc; rw [if_pos hc] at h; exact Except.noConfusion h
  rw [if_neg h2] at h
  have h3 : (s.proposals pid).totalFundsRaised > 0 := by
    by_contra hc
    rw [if_pos hc] at h
    exact Except.noConfusion h
  rw [if_neg (not_not_intro h3)] at h
  have h4 : transferOk = true := by
    cases hc : transferOk
    · rw [hc] at h
      simp only [Bool.false_eq_true, if_false] at h
      exact Except.noConfusion h
    · rfl
  rw [h4] at h
  simp only [if_true, Except.ok.injEq, Prod.mk.injEq] at h
  obtain ⟨hst, hamt⟩ := h
  subst hst
  refine ⟨h1, h2, h3, h4, hamt.symm, ?_, ?_, ?_, ?_, ?_, ?_, ?_, ?_, ?_,
    rfl, rfl, rfl, rfl, rfl, rfl⟩
  · intro q hq
    simp [hq]
  all_goals simp

/-! ## The claims -/

/-- C1: for every proposal with `totalRaised > 0`, `withdraw` transfers
exactly the pre-withdrawal `totalRaised` to the recipient and zeroes
`totalRaised`; if the external transfer fails the call reverts (error,
state unchanged); and a second immediate `withdraw` fails (whatever the
transfer outcome would have been) without mutating state. -/
theorem c1_withdraw_spec (s : CState) (pid : Nat) (recipient : Addr)
    (hex : (s.proposals pid).id ≠ 0)
    (hpos : (s.proposals pid).totalFundsRaised > 0) :
    withdrawFunds s s.owner pid recipient true =
      .ok (step s (.withdraw s.owner pid recipient true),
           (s.proposals pid).totalFundsRaised) ∧
    ((step s (.withdraw s.owner pid recipient true)).proposals
        pid).totalFundsRaised = 0 ∧
    withdrawFunds s s.owner pid recipient false = .error .transferFailed ∧
    step s (.withdraw s.owner pid recipient false) = s ∧
    withdrawFunds (step s (.withdraw s.owner pid recipient true)) s.owner
      pid recipient true = .error .noFundsToWithdraw ∧
    withdrawFunds (step s (.withdraw s.owner pid recipient true)) s.owner
      pid recipient false = .error .noFundsToWithdraw ∧
    step (step s (.withdraw s.owner pid recipient true))
        (.withdraw s.owner pid recipient true) =
      step s (.withdraw s.owner pid recipient true) := by
  have hmain : withdrawFunds s s.owner pid recipient true =
      .ok ({ s with proposals := fun q =>
              if q = pid then
                { s.proposals pid with totalFundsRaised := 0 }
              else s.proposals q },
           (s.proposals pid).totalFundsRaised) := by
    unfold withdrawFunds
    rw [if_neg (not_not_intro rfl), if_neg hex, if_neg (not_not_intro hpos)]
    rfl
  have hstep : step s (.withdraw s.owner pid recipient true) =
      { s with proposals := fun q =>
          if q = pid then { s.proposals pid with totalFundsRaised := 0 }
          else s.proposals q } := by
    simp only [step, applyOp]
    rw [hmain]
    rfl
  have hfail : withdrawFunds s s.owner pid recipient false =
      .error .transferFailed := by
    unfold withdrawFunds
    rw [if_neg (not_not_intro rfl), if_neg hex, if_neg (not_not_intro hpos)]
    rfl
  have hzero : ∀ b, withdrawFunds
      { s with proposals := fun q =>
          if q = pid then { s.proposals pid with totalFundsRaised := 0 }
          else s.proposals q } s.owner pid recipient b =
      .error .noFundsToWithdraw := by
    intro b
    unfold withdrawFunds
    rw [if_neg (not_not_intro rfl), if_neg (by simpa using hex),
      if_pos (by simp)]
  refine ⟨by rw [hstep]; exact hmain, by rw [hstep]; simp, hfail, ?_,
    by rw [hstep]; exact hzero true, by rw [hstep]; exact hzero false, ?_⟩
  · simp only [step, applyOp]
    rw [hfail]
    rfl
  · rw [hstep]
    simp only [step, applyOp]
    rw [hzero true]
    rfl

/-- C1 witness: on a live contract with one accepted, funded proposal
(30 units raised) the withdrawal behaves as `c1_withdraw_spec` states. -/
theorem c1_withdraw_spec_witness :
    withdrawFunds (execTrace 0 traceFunded) 0 1 9 true =
      .ok (step (execTrace 0 traceFunded) (.withdraw 0 1 9 true), 30) ∧
    ((step (execTrace 0 traceFunded) (.withdraw 0 1 9 true)).proposals
        1).totalFundsRaised = 0 ∧
    withdrawFunds (execTrace 0 traceFunded) 0 1 9 false =
      .error .transferFailed ∧
    withdrawFunds (step (execTrace 0 traceFunded) (.withdraw 0 1 9 true))
      0 1 9 true = .error .noFundsToWithdraw := by
  have h := c1_withdraw_spec (execTrace 0 traceFunded) 1 9 (by decide)
    (by decide)
  exact ⟨h.1, h.2.1, h.2.2.1, h.2.2.2.2.1⟩

/-- C3: on an existing `Active` proposal strictly past its deadline,
`updateProposalStatus` (owner-only) succeeds and sets the status to
`Accepted` iff `yesVotes > noVotes`, to `Declined` otherwise (ties
included), and enables funding when accepting with a positive goal;
a non-owner caller gets the `onlyOwner` error. -/
theorem c3_resolve_by_deadline (s : CState) (pid now : Nat) (x : Addr)
    (hx : x ≠ s.owner)
    (hex : (s.proposals pid).id ≠ 0)
    (hact : (s.proposals pid).status = .Active)
    (hdl : now > (s.proposals pid).endDate) :
    opOk s (.updateStatus s.owner pid now) = true ∧
    ((step s (.updateStatus s.owner pid now)).proposals pid).status =
      (if (s.proposals pid).yesVotes > (s.proposals pid).noVotes
       then ProposalStatus.Accepted else ProposalStatus.Declined) ∧
    ((s.proposals pid).yesVotes ≤ (s.proposals pid).noVotes →
      ((step s (.updateStatus s.owner pid now)).proposals pid).status =
        .Declined) ∧
    ((s.proposals pid).yesVotes > (s.proposals pid).noVotes ∧
        (s.proposals pid).fundingGoal > 0 →
      ((step s (.updateStatus s.owner pid now)).proposals
          pid).fundingEnabled = true) ∧
    updateProposalStatus s x pid now = .error .onlyOwner := by
  have hmain : updateProposalStatus s s.owner pid now = .ok
      { s with proposals := fun q => if q = pid then
          { s.proposals pid with
            status :=
              if (s.proposals pid).yesVotes > (s.proposals pid).noVotes
              then .Accepted else .Declined,
            fundingEnabled :=
              if (s.proposals pid).yesVotes > (s.proposals pid).noVotes ∧
                  (s.proposals pid).fundingGoal > 0
              then true else (s.proposals pid).fundingEnabled }
        else s.proposals q } := by
    unfold updateProposalStatus
    rw [if_neg (not_not_intro rfl), if_neg hex, if_neg (not_not_intro hact),
      if_neg (not_not_intro hdl)]
  have hstep : step s (.updateStatus s.owner pid now) =
      { s with proposals := fun q => if q = pid then
          { s.proposals pid with
            status :=
              if (s.proposals pid).yesVotes > (s.proposals pid).noVotes
              then .Accepted else .Declined,
            fundingEnabled :=
              if (s.proposals pid).yesVotes > (s.proposals pid).noVotes ∧
                  (s.proposals pid).fundingGoal > 0
              then true else (s.proposals pid).fundingEnabled }
        else s.proposals q } := by
    simp only [step, applyOp]
    rw [hmain]
  refine ⟨?_, ?_, ?_, ?_, ?_⟩
  · simp only [opOk, applyOp]
    rw [hmain]
  · rw [hstep]
    simp
  · intro hle
    rw [hstep]
    have hn : ¬((s.proposals pid).yesVotes > (s.proposals pid).noVotes) := by
      omega
    simp [hn]
  · intro hc
    rw [hstep]
    simp [hc.1, hc.2]
  · unfold updateProposalStatus
    rw [if_pos hx]

/-- C3 witness: proposal 1 with one yes vote, resolved at time 101 on a
deadline of 100: accepted, funding enabled; a non-owner caller is
rejected. -/
theorem c3_resolve_by_deadline_witness :
    opOk (execTrace 0 [opOpen, .castVote 1 true 11 10])
      (.updateStatus 0 1 101) = true ∧
    ((step (execTrace 0 [opOpen, .castVote 1 true 11 10])
        (.updateStatus 0 1 101)).proposals 1).status = .Accepted ∧
    ((step (execTrace 0 [opOpen, .castVote 1 true 11 10])
        (.updateStatus 0 1 101)).proposals 1).fundingEnabled = true ∧
    updateProposalStatus (execTrace 0 [opOpen, .castVote 1 true 11 10])
      5 1 101 = .error .onlyOwner := by
  have h := c3_resolve_by_deadline
    (execTrace 0 [opOpen, .castVote 1 true 11 10]) 1 101 5 (by decide)
    (by decide) (by decide) (by decide)
  exact ⟨h.1, h.2.1.trans (by decide), h.2.2.2.1 (by decide), h.2.2.2.2⟩

/-- C4: the `vote` preconditions are checked in the fixed order
existence → `Active` status → not already voted → deadline, the first
failure determining the error; in particular an already-voted caller on an
`Active` proposal past its deadline gets `alreadyVoted`, not
`votingEnded` (the third conjunct assumes nothing about the deadline). -/
theorem c4_vote_error_order (s : CState) (pid : Nat) (v : Bool)
    (voter : Addr) (now : Nat) :
    ((s.proposals pid).id = 0 →
      vote s pid v voter now = .error .proposalNotFound) ∧
    ((s.proposals pid).id ≠ 0 → (s.proposals pid).status ≠ .Active →
      vote s pid v voter now = .error .proposalNotActive) ∧
    ((s.proposals pid).id ≠ 0 → (s.proposals pid).status = .Active →
      s.hasVoted pid voter = true →
      vote s pid v voter now = .error .alreadyVoted) ∧
    ((s.proposals pid).id ≠ 0 → (s.proposals pid).status = .Active →
      s.hasVoted pid voter = false → now > (s.proposals pid).endDate →
      vote s pid v voter now = .error .votingEnded) := by
  refine ⟨?_, ?_, ?_, ?_⟩
  · intro h0
    unfold vote
    rw [if_pos h0]
  · intro hex hns
    unfold vote
    rw [if_neg hex, if_pos hns]
  · intro hex hact hv
    unfold vote
    rw [if_neg hex, if_neg (not_not_intro hact), if_pos hv]
  · intro hex hact hv hd
    unfold vote
    rw [if_neg hex, if_neg (not_not_intro hact), if_neg (by simp [hv]),
      if_pos (by omega)]

/-- C4 witness: all four first-failure errors on concrete states; the
third conjunct realises the claim's example — an `Active` proposal past
its deadline (200 > 100) still reports `alreadyVoted` for a repeat
voter. -/
theorem c4_vote_error_order_witness :
    vote (execTrace 0 [opOpen, .castVote 1 true 11 10]) 2 true 3 10 =
      .error .proposalNotFound ∧
    vote (execTrace 0 traceAccepted) 1 true 3 10 =
      .error .proposalNotActive ∧
    vote (execTrace 0 [opOpen, .castVote 1 true 11 10]) 1 false 11 200 =
      .error .alreadyVoted ∧
    vote (execTrace 0 [opOpen, .castVote 1 true 11 10]) 1 true 12 200 =
      .error .votingEnded := by
  refine ⟨?_, ?_, ?_, ?_⟩
  · exact (c4_vote_error_order
      (execTrace 0 [opOpen, .castVote 1 true 11 10]) 2 true 3 10).1
      (by decide)
  · exact (c4_vote_error_order (execTrace 0 traceAccepted) 1 true 3
      10).2.1 (by decide) (by decide)
  · exact (c4_vote_error_order
      (execTrace 0 [opOpen, .castVote 1 true 11 10]) 1 false 11 200).2.2.1
      (by decide) (by decide) (by decide)
  · exact (c4_vote_error_order
      (execTrace 0 [opOpen, .castVote 1 true 11 10]) 1 true 12
      200).2.2.2 (by decide) (by decide) (by decide) (by decide)

/-- C9: for an existing proposal, `getDonationProgress` returns
`(raised, goal, percentage)` with `percentage` the rational floor of
`raised * 100 / goal` when `goal > 0` and `0` when `goal = 0` regardless
of `raised`.  The function takes the state and returns only the triple,
so it mutates nothing by construction. -/
theorem c9_donation_progress (s : CState) (pid : Nat)
    (hex : (s.proposals pid).id ≠ 0) :
    getDonationProgress s pid =
      .ok ((s.proposals pid).totalFundsRaised, (s.proposals pid).fundingGoal,
        if (s.proposals pid).fundingGoal > 0
        then ⌊(((s.proposals pid).totalFundsRaised * 100 : ℕ) : ℚ) /
               (((s.proposals pid).fundingGoal : ℕ) : ℚ)⌋₊
        else 0) ∧
    ((s.proposals pid).fundingGoal = 0 →
      getDonationProgress s pid =
        .ok ((s.proposals pid).totalFundsRaised, 0, 0)) := by
  constructor
  · unfold getDonationProgress
    rw [if_neg hex]
    simp only [Nat.floor_div_eq_div]
  · intro h0
    unfold getDonationProgress
    rw [if_neg hex]
    simp [h0]

/-- C9 witness: `raised = 30`, `goal = 50` gives `percentage = 60`;
`goal = 0` gives `percentage = 0`. -/
theorem c9_donation_progress_witness :
    getDonationProgress (execTrace 0 traceFunded) 1 = .ok (30, 50, 60) ∧
    getDonationProgress (execTrace 0 traceAcceptedNoGoal) 1 =
      .ok (0, 0, 0) := by
  constructor
  · have h := (c9_donation_progress (execTrace 0 traceFunded) 1
      (by decide)).1
    rw [h, Nat.floor_div_eq_div]
    rfl
  · have h := (c9_donation_progress (execTrace 0 traceAcceptedNoGoal) 1
      (by decide)).2 (by decide)
    rw [h]
    rfl

/-- C10: `forceCloseProposal` accepts `Active` as the target status: on an
existing `Active` proposal it succeeds and leaves the state literally
unchanged (status still `Active`, `fundingEnabled` untouched), so the
proposal can still be voted on (within the deadline, by a fresh voter)
and resolved later (after the deadline). -/
theorem c10_force_resolve_to_active (s : CState) (pid : Nat) (v : Bool)
    (voter : Addr) (now' now'' : Nat)
    (hex : (s.proposals pid).id ≠ 0)
    (hact : (s.proposals pid).status = .Active)
    (hnv : s.hasVoted pid voter = false)
    (hdl : now' ≤ (s.proposals pid).endDate)
    (hdl2 : now'' > (s.proposals pid).endDate) :
    forceCloseProposal s s.owner pid .Active = .ok s ∧
    step s (.forceClose s.owner pid .Active) = s ∧
    ((step s (.forceClose s.owner pid .Active)).proposals pid).status =
      .Active ∧
    ((step s (.forceClose s.owner pid .Active)).proposals
        pid).fundingEnabled = (s.proposals pid).fundingEnabled ∧
    opOk (step s (.forceClose s.owner pid .Active))
      (.castVote pid v voter now') = true ∧
    opOk (step s (.forceClose s.owner pid .Active))
      (.updateStatus s.owner pid now'') = true := by
  have hres : forceCloseProposal s s.owner pid .Active = .ok s := by
    unfold forceCloseProposal
    rw [if_neg (not_not_intro rfl), if_neg hex, if_neg (not_not_intro hact)]
    show Except.ok
        { s with proposals := fun q => if q = pid then
            { s.proposals pid with
              status := ProposalStatus.Active,
              fundingEnabled :=
                if ProposalStatus.Active = ProposalStatus.Accepted ∧
                    (s.proposals pid).fundingGoal > 0 then true
                else (s.proposals pid).fundingEnabled }
          else s.proposals q } = Except.ok s
    have hp : ({ s.proposals pid with
              status := ProposalStatus.Active,
              fundingEnabled :=
                if ProposalStatus.Active = ProposalStatus.Accepted ∧
                    (s.proposals pid).fundingGoal > 0 then true
                else (s.proposals pid).fundingEnabled } : Proposal) =
        s.proposals pid := by
      rw [if_neg (by simp), ← hact]
    rw [hp]
    have hfun : (fun q => if q = pid then s.proposals pid
        else s.proposals q) = s.proposals := by
      funext q
      by_cases hq : q = pid
      · rw [if_pos hq, hq]
      · rw [if_neg hq]
    rw [hfun]
  have hstep : step s (.forceClose s.owner pid .Active) = s := by
    simp only [step, applyOp]
    rw [hres]
  refine ⟨hres, hstep, by rw [hstep]; exact hact, by rw [hstep], ?_, ?_⟩
  · rw [hstep]
    simp only [opOk, applyOp]
    unfold vote
    rw [if_neg hex, if_neg (not_not_intro hact), if_neg (by simp [hnv]),
      if_neg (not_not_intro hdl)]
  · rw [hstep]
    simp only [opOk, applyOp]
    unfold updateProposalStatus
    rw [if_neg (not_not_intro rfl), if_neg hex, if_neg (not_not_intro hact),
      if_neg (not_not_intro hdl2)]

/-- C10 witness: force-resolving proposal 1 to `Active` right after
creation is a successful no-op, after which voter 3 can still vote at
time 10 and the owner can still resolve at time 101. -/
theorem c10_force_resolve_to_active_witness :
    forceCloseProposal (execTrace 0 [opOpen]) 0 1 .Active =
      .ok (execTrace 0 [opOpen]) ∧
    ((step (execTrace 0 [opOpen]) (.forceClose 0 1 .Active)).proposals
        1).status = .Active ∧
    opOk (step (execTrace 0 [opOpen]) (.forceClose 0 1 .Active))
      (.castVote 1 true 3 10) = true ∧
    opOk (step (execTrace 0 [opOpen]) (.forceClose 0 1 .Active))
      (.updateStatus 0 1 101) = true := by
  have h := c10_force_resolve_to_active (execTrace 0 [opOpen]) 1 true 3
    10 101 (by decide) (by decide) (by decide) (by decide) (by decide)
  exact ⟨h.1, h.2.2.1, h.2.2.2.2.1, h.2.2.2.2.2⟩

/-- C2 counterexample: a reachable state with proposal 1 `Accepted` and
funding disabled, where `setFundingGoal` with amount `100 > 0` succeeds
and stores the goal but `fundingEnabled` stays `false`, and a subsequent
positive donation is rejected for funding being disabled — refuting the
claim that the call immediately enables funding. -/
theorem c2_counterexample :
    ((execTrace 0 traceAcceptedNoGoal).proposals 1).status = .Accepted ∧
    opOk (execTrace 0 traceAcceptedNoGoal) (.setGoal 0 1 100) = true ∧
    ((step (execTrace 0 traceAcceptedNoGoal) (.setGoal 0 1 100)).proposals
        1).fundingGoal = 100 ∧
    ((step (execTrace 0 traceAcceptedNoGoal) (.setGoal 0 1 100)).proposals
        1).fundingEnabled = false ∧
    donateToProposal (step (execTrace 0 traceAcceptedNoGoal)
      (.setGoal 0 1 100)) 2 5 50 1 = .error .fundingNotEnabled :=
  ⟨by decide, by decide, by decide, by decide, rfl⟩

/-- C2 (amended): on an existing `Accepted` proposal, `setFundingGoal`
with a positive amount succeeds and overwrites `fundingGoal`, but leaves
`fundingEnabled` unchanged; when funding was not already enabled, a
subsequent positive donation is rejected with the funding-disabled
error. -/
theorem c2_set_funding_goal_amended (s : CState) (pid goal : Nat)
    (donor : Addr) (value now : Nat) (_hval : value > 0) (_hgoal : goal > 0)
    (hex : (s.proposals pid).id ≠ 0)
    (hacc : (s.proposals pid).status = .Accepted) :
    opOk s (.setGoal s.owner pid goal) = true ∧
    ((step s (.setGoal s.owner pid goal)).proposals pid).fundingGoal =
      goal ∧
    ((step s (.setGoal s.owner pid goal)).proposals pid).fundingEnabled =
      (s.proposals pid).fundingEnabled ∧
    ((s.proposals pid).fundingEnabled = false →
      donateToProposal (step s (.setGoal s.owner pid goal)) donor value
        now pid = .error .fundingNotEnabled) := by
  have hmain : setFundingGoal s s.owner pid goal = .ok
      { s with proposals := fun q => if q = pid then
          { s.proposals pid with fundingGoal := goal }
        else s.proposals q } := by
    unfold setFundingGoal
    rw [if_neg (not_not_intro rfl), if_neg hex, if_neg (not_not_intro hacc)]
  have hstep : step s (.setGoal s.owner pid goal) =
      { s with proposals := fun q => if q = pid then
          { s.proposals pid with fundingGoal := goal }
        else s.proposals q } := by
    simp only [step, applyOp]
    rw [hmain]
  refine ⟨?_, ?_, ?_, ?_⟩
  · simp only [opOk, applyOp]
    rw [hmain]
  · rw [hstep]
    simp
  · rw [hstep]
    simp
  · intro hfe
    rw [hstep]
    unfold donateToProposal
    rw [if_neg (by simpa using hex), if_neg (by simp [hacc]),
      if_pos (by simp [hfe])]

/-- C2 (amended) witness: on the accepted proposal of
`traceAcceptedNoGoal`, setting goal 100 stores the goal, funding stays
disabled, and a positive donation then fails. -/
theorem c2_set_funding_goal_amended_witness :
    opOk (execTrace 0 traceAcceptedNoGoal) (.setGoal 0 1 100) = true ∧
    ((step (execTrace 0 traceAcceptedNoGoal) (.setGoal 0 1 100)).proposals
        1).fundingGoal = 100 ∧
    ((step (execTrace 0 traceAcceptedNoGoal) (.setGoal 0 1 100)).proposals
        1).fundingEnabled = false ∧
    donateToProposal (step (execTrace 0 traceAcceptedNoGoal)
      (.setGoal 0 1 100)) 2 5 50 1 = .error .fundingNotEnabled := by
  have h := c2_set_funding_goal_amended (execTrace 0 traceAcceptedNoGoal)
    1 100 2 5 50 (by decide) (by decide) (by decide) (by decide)
  exact ⟨h.1, h.2.1, h.2.2.1.trans (by decide), h.2.2.2 (by decide)⟩

/-- C5: in every state reachable by any transaction sequence from a fresh
deployment, and for every proposal slot, `status = Active` implies
`fundingEnabled = false` and `fundingEnabled = true` implies
`status = Accepted`. -/
theorem c5_funding_status_invariant (deployer : Addr) (ops : List Op)
    (pid : Nat) :
    (((execTrace deployer ops).proposals pid).status = .Active →
      ((execTrace deployer ops).proposals pid).fundingEnabled = false) ∧
    (((execTrace deployer ops).proposals pid).fundingEnabled = true →
      ((execTrace deployer ops).proposals pid).status = .Accepted) := by
  have h := inv_execTrace deployer ops
  exact ⟨h.2.2.2.1 pid, h.2.2.2.2 pid⟩

/-- C5 witness: a live `Active` proposal has funding disabled, and a
funded proposal (funding enabled by resolution) is `Accepted`. -/
theorem c5_funding_status_invariant_witness :
    ((execTrace 0 [opOpen]).proposals 1).fundingEnabled = false ∧
    ((execTrace 0 traceAccepted).proposals 1).status = .Accepted := by
  refine ⟨(c5_funding_status_invariant 0 [opOpen] 1).1 (by decide),
    (c5_funding_status_invariant 0 traceAccepted 1).2 (by decide)⟩

/-! ## Counter evolution along a trace (towards C7) -/

lemma step_counter (s : CState) (op : Op) (hnc : op.isCreate = false) :
    (step s op).proposalCounter = s.proposalCounter := by
  unfold step
  cases h : applyOp s op with
  | error e => rfl
  | ok s' =>
      cases op with
      | create pn pi d ed env demo cr fe g now => simp [Op.isCreate] at hnc
      | castVote p v voter now =>
          obtain ⟨-, -, -, -, -, -, -, -, -, -, -, -, -, -, -, hc, -⟩ :=
            vote_ok_shape s s' p v voter now h
          exact hc
      | updateStatus sender p now =>
          obtain ⟨-, -, -, -, -, -, -, -, -, -, -, -, -, -, -, -, -, hc, -⟩ :=
            updateProposalStatus_ok_shape s s' sender p now h
          exact hc
      | forceClose sender p st =>
          obtain ⟨-, -, -, -, -, -, -, -, -, -, -, -, -, -, -, -, hc, -⟩ :=
            forceCloseProposal_ok_shape s s' sender p st h
          exact hc
      | setGoal sender p g =>
          obtain ⟨-, -, -, -, -, -, -, -, -, -, -, -, -, -, -, -, hc, -⟩ :=
            setFundingGoal_ok_shape s s' sender p g h
          exact hc
      | donate sender vl now p =>
          obtain ⟨-, -, -, -, -, -, -, -, -, -, -, -, -, -, -, -, -, -, -,
              hc, -⟩ :=
            donateToProposal_ok_shape s s' sender vl now p h
          exact hc
      | withdraw sender p r tok =>
          simp only [applyOp] at h
          cases hw : withdrawFunds s sender p r tok with
          | error e => rw [hw] at h; exact Except.noConfusion h
          | ok pr =>
              rw [hw] at h
              simp only [Except.map, Except.ok.injEq] at h
              obtain ⟨a, b⟩ := pr
              obtain ⟨-, -, -, -, -, -, -, -, -, -, -, -, -, -, -, -, -, -,
                  hc, -⟩ :=
                withdrawFunds_ok_shape s a sender p r tok b hw
              rw [← h]
              exact hc

lemma execFrom_counter (ops : List Op) : ∀ s : CState,
    (execFrom s ops).proposalCounter =
      s.proposalCounter + createCount s ops := by
  induction ops with
  | nil => intro s; simp [execFrom, createCount]
  | cons op ops ih =>
      intro s
      cases op with
      | create pn pi d ed env demo cr fe g now =>
          cases hc : createProposal s pn pi d ed env demo cr fe g now with
          | error e =>
              have hstep :
                  step s (.create pn pi d ed env demo cr fe g now) = s := by
                simp only [step, applyOp]
                rw [hc]
                rfl
              have hcc :
                  createCount s (.create pn pi d ed env demo cr fe g now ::
                      ops) =
                  createCount
                    (step s (.create pn pi d ed env demo cr fe g now))
                    ops := by
                simp only [createCount]
                rw [hc]
                simp
              show (execFrom
                  (step s (.create pn pi d ed env demo cr fe g now))
                  ops).proposalCounter = _
              rw [hcc, hstep]
              exact ih s
          | ok pr =>
              obtain ⟨s₁, rid⟩ := pr
              obtain ⟨hrid, hcnt, -⟩ := createProposal_ok_shape s s₁ pn pi d
                ed env demo cr fe g now rid hc
              have hstep :
                  step s (.create pn pi d ed env demo cr fe g now) = s₁ := by
                simp only [step, applyOp]
                rw [hc]
                rfl
              have hcc :
                  createCount s (.create pn pi d ed env demo cr fe g now ::
                      ops) =
                  1 + createCount
                    (step s (.create pn pi d ed env demo cr fe g now))
                    ops := by
                simp only [createCount]
                rw [hc]
              show (execFrom
                  (step s (.create pn pi d ed env demo cr fe g now))
                  ops).proposalCounter = _
              rw [hcc, hstep, ih s₁, hcnt]
              omega
      | castVote p v voter now =>
          have hco := step_counter s (.castVote p v voter now) rfl
          show (execFrom (step s (.castVote p v voter now))
              ops).proposalCounter = _
          rw [show createCount s (Op.castVote p v voter now :: ops) =
              createCount (step s (.castVote p v voter now)) ops from rfl,
            ih (step s (.castVote p v voter now)), hco]
      | updateStatus sender p now =>
          have hco := step_counter s (.updateStatus sender p now) rfl
          show (execFrom (step s (.updateStatus sender p now))
              ops).proposalCounter = _
          rw [show createCount s (Op.updateStatus sender p now :: ops) =
              createCount (step s (.updateStatus sender p now)) ops from rfl,
            ih (step s (.updateStatus sender p now)), hco]
      | forceClose sender p st =>
          have hco := step_counter s (.forceClose sender p st) rfl
          show (execFrom (step s (.forceClose sender p st))
              ops).proposalCounter = _
          rw [show createCount s (Op.forceClose sender p st :: ops) =
              createCount (step s (.forceClose sender p st)) ops from rfl,
            ih (step s (.forceClose sender p st)), hco]
      | setGoal sender p g =>
          have hco := step_counter s (.setGoal sender p g) rfl
          show (execFrom (step s (.setGoal sender p g))
              ops).proposalCounter = _
          rw [show createCount s (Op.setGoal sender p g :: ops) =
              createCount (step s (.setGoal sender p g)) ops from rfl,
            ih (step s (.setGoal sender p g)), hco]
      | donate sender vl now p =>
          have hco := step_counter s (.donate sender vl now p) rfl
          show (execFrom (step s (.donate sender vl now p))
              ops).proposalCounter = _
          rw [show createCount s (Op.donate sender vl now p :: ops) =
              createCount (step s (.donate sender vl now p)) ops from rfl,
            ih (step s (.donate sender vl now p)), hco]
      | withdraw sender p r tok =>
          have hco := step_counter s (.withdraw sender p r tok) rfl
          show (execFrom (step s (.withdraw sender p r tok))
              ops).proposalCounter = _
          rw [show createCount s (Op.withdraw sender p r tok :: ops) =
              createCount (step s (.withdraw sender p r tok)) ops from rfl,
            ih (step s (.withdraw sender p r tok)), hco]

lemma createdIds_range (ops : List Op) : ∀ s : CState,
    createdIds s ops =
      List.range' (s.proposalCounter + 1) (createCount s ops) := by
  induction ops with
  | nil => intro s; simp [createdIds, createCount]
  | cons op ops ih =>
      intro s
      cases op with
      | create pn pi d ed env demo cr fe g now =>
          cases hc : createProposal s pn pi d ed env demo cr fe g now with
          | error e =>
              have hstep :
                  step s (.create pn pi d ed env demo cr fe g now) = s := by
                simp only [step, applyOp]
                rw [hc]
                rfl
              have hi : createdIds s (.create pn pi d ed env demo cr fe g
                  now :: ops) =
                  createdIds (step s (.create pn pi d ed env demo cr fe g
                    now)) ops := by
                simp only [createdIds]
                rw [hc]
              have hcc :
                  createCount s (.create pn pi d ed env demo cr fe g now ::
                      ops) =
                  createCount
                    (step s (.create pn pi d ed env demo cr fe g now))
                    ops := by
                simp only [createCount]
                rw [hc]
                simp
              rw [hi, hcc, hstep]
              exact ih s
          | ok pr =>
              obtain ⟨s₁, rid⟩ := pr
              obtain ⟨hrid, hcnt, -⟩ := createProposal_ok_shape s s₁ pn pi d
                ed env demo cr fe g now rid hc
              have hstep :
                  step s (.create pn pi d ed env demo cr fe g now) = s₁ := by
                simp only [step, applyOp]
                rw [hc]
                rfl
              have hi : createdIds s (.create pn pi d ed env demo cr fe g
                  now :: ops) =
                  rid :: createdIds (step s (.create pn pi d ed env demo cr
                    fe g now)) ops := by
                simp only [createdIds]
                rw [hc]
              have hcc :
                  createCount s (.create pn pi d ed env demo cr fe g now ::
                      ops) =
                  1 + createCount
                    (step s (.create pn pi d ed env demo cr fe g now))
                    ops := by
                simp only [createCount]
                rw [hc]
              rw [hi, hcc, hstep, ih s₁, hcnt, hrid, Nat.add_comm 1,
                List.range'_succ]
      | castVote p v voter now =>
          have hco := step_counter s (.castVote p v voter now) rfl
          rw [show createdIds s (Op.castVote p v voter now :: ops) =
              createdIds (step s (.castVote p v voter now)) ops from rfl,
            show createCount s (Op.castVote p v voter now :: ops) =
              createCount (step s (.castVote p v voter now)) ops from rfl,
            ih (step s (.castVote p v voter now)), hco]
      | updateStatus sender p now =>
          have hco := step_counter s (.updateStatus sender p now) rfl
          rw [show createdIds s (Op.updateStatus sender p now :: ops) =
              createdIds (step s (.updateStatus sender p now)) ops from rfl,
            show createCount s (Op.updateStatus sender p now :: ops) =
              createCount (step s (.updateStatus sender p now)) ops from rfl,
            ih (step s (.updateStatus sender p now)), hco]
      | forceClose sender p st =>
          have hco := step_counter s (.forceClose sender p st) rfl
          rw [show createdIds s (Op.forceClose sender p st :: ops) =
              createdIds (step s (.forceClose sender p st)) ops from rfl,
            show createCount s (Op.forceClose sender p st :: ops) =
              createCount (step s (.forceClose sender p st)) ops from rfl,
            ih (step s (.forceClose sender p st)), hco]
      | setGoal sender p g =>
          have hco := step_counter s (.setGoal sender p g) rfl
          rw [show createdIds s (Op.setGoal sender p g :: ops) =
              createdIds (step s (.setGoal sender p g)) ops from rfl,
            show createCount s (Op.setGoal sender p g :: ops) =
              createCount (step s (.setGoal sender p g)) ops from rfl,
            ih (step s (.setGoal sender p g)), hco]
      | donate sender vl now p =>
          have hco := step_counter s (.donate sender vl now p) rfl
          rw [show createdIds s (Op.donate sender vl now p :: ops) =
              createdIds (step s (.donate sender vl now p)) ops from rfl,
            show createCount s (Op.donate sender vl now p :: ops) =
              createCount (step s (.donate sender vl now p)) ops from rfl,
            ih (step s (.donate sender vl now p)), hco]
      | withdraw sender p r tok =>
          have hco := step_counter s (.withdraw sender p r tok) rfl
          rw [show createdIds s (Op.withdraw sender p r tok :: ops) =
              createdIds (step s (.withdraw sender p r tok)) ops from rfl,
            show createCount s (Op.withdraw sender p r tok :: ops) =
              createCount (step s (.withdraw sender p r tok)) ops from rfl,
            ih (step s (.withdraw sender p r tok)), hco]

lemma chain'_lt_range' (n : Nat) : ∀ a : Nat,
    (List.range' a n).Chain' (· < ·) := by
  induction n with
  | zero => intro a; exact List.chain'_nil
  | succ k ih =>
      intro a
      rw [List.range'_succ, List.chain'_cons']
      constructor
      · intro y hy
        cases k with
        | zero => simp [List.range'] at hy
        | succ m =>
            rw [List.range'_succ] at hy
            simp at hy
            omega
      · exact ih (a + 1)

/-- C7: along any transaction sequence from a fresh deployment, the ids
returned by the successful `createProposal` calls are exactly
`1, 2, …, n` (consecutive, strictly increasing, never reused) where `n`
is the number of successful calls, and `getTotalProposals` returns
exactly that number. -/
theorem c7_created_ids (deployer : Addr) (ops : List Op) :
    createdIds (initState deployer) ops =
      List.range' 1 (createCount (initState deployer) ops) ∧
    getTotalProposals (execTrace deployer ops) =
      createCount (initState deployer) ops ∧
    (createdIds (initState deployer) ops).Chain' (· < ·) := by
  have h1 := createdIds_range ops (initState deployer)
  have h2 := execFrom_counter ops (initState deployer)
  refine ⟨h1, ?_, ?_⟩
  · unfold getTotalProposals execTrace
    rw [h2]
    simp [initState]
  · rw [h1]
    exact chain'_lt_range' _ 1

/-! ## Vote accounting along a trace (towards C6) -/

lemma step_of_error (s : CState) (op : Op) (e : Err)
    (h : applyOp s op = .error e) : step s op = s := by
  unfold step
  rw [h]

lemma opOk_of_error (s : CState) (op : Op) (e : Err)
    (h : applyOp s op = .error e) : opOk s op = false := by
  unfold opOk
  rw [h]

lemma step_of_ok (s s₁ : CState) (op : Op) (h : applyOp s op = .ok s₁) :
    step s op = s₁ := by
  unfold step
  rw [h]

lemma opOk_of_ok (s s₁ : CState) (op : Op) (h : applyOp s op = .ok s₁) :
    opOk s op = true := by
  unfold opOk
  rw [h]

lemma voterRel_transfer (s s₁ : CState) (pid : Nat) (l : List Addr)
    (hyes : (s₁.proposals pid).yesVotes = (s.proposals pid).yesVotes)
    (hno : (s₁.proposals pid).noVotes = (s.proposals pid).noVotes)
    (hhv : ∀ a, s₁.hasVoted pid a = s.hasVoted pid a)
    (h1 : (s.proposals pid).yesVotes + (s.proposals pid).noVotes = l.length)
    (h3 : ∀ a, s.hasVoted pid a = true ↔ a ∈ l) :
    ((s₁.proposals pid).yesVotes + (s₁.proposals pid).noVotes = l.length) ∧
    (∀ a, s₁.hasVoted pid a = true ↔ a ∈ l) :=
  ⟨by rw [hyes, hno]; exact h1, fun a => by rw [hhv a]; exact h3 a⟩

/-- The tallies of a proposal count exactly the distinct voters whose
`vote` transaction on it succeeded: running any trace from a state where
the tallies match a duplicate-free voter list `l` (with `hasVoted`
agreeing) extends `l` by the successful voters, keeps it duplicate-free,
and keeps the tallies equal to its length. -/
lemma succVoters_spec (pid : Nat) (ops : List Op) : ∀ (s : CState)
    (l : List Addr), Inv s →
    ((s.proposals pid).yesVotes + (s.proposals pid).noVotes = l.length) →
    l.Nodup →
    (∀ a, s.hasVoted pid a = true ↔ a ∈ l) →
    (((execFrom s ops).proposals pid).yesVotes +
        ((execFrom s ops).proposals pid).noVotes =
      (l ++ succVoters s pid ops).length ∧
    (l ++ succVoters s pid ops).Nodup ∧
    (∀ a, (execFrom s ops).hasVoted pid a = true ↔
      a ∈ l ++ succVoters s pid ops)) := by
  induction ops with
  | nil =>
      intro s l _ h1 h2 h3
      simp only [execFrom, succVoters, List.append_nil]
      exact ⟨h1, h2, h3⟩
  | cons op ops ih =>
      intro s l hs h1 h2 h3
      cases ha : applyOp s op with
      | error e =>
          have hstep := step_of_error s op e ha
          have hok := opOk_of_error s op e ha
          have hsv : succVoters s pid (op :: ops) =
              succVoters s pid ops := by
            cases op <;> simp [succVoters, hok, hstep]
          have e3 : execFrom s (op :: ops) = execFrom s ops := by
            rw [show execFrom s (op :: ops) =
              execFrom (step s op) ops from rfl, hstep]
          rw [e3, hsv]
          exact ih s l hs h1 h2 h3
      | ok s₁ =>
          have hstep := step_of_ok s s₁ op ha
          have hok := opOk_of_ok s s₁ op ha
          have hinv : Inv s₁ := hstep ▸ inv_step s op hs
          have e3 : execFrom s (op :: ops) = execFrom s₁ ops := by
            rw [show execFrom s (op :: ops) =
              execFrom (step s op) ops from rfl, hstep]
          cases op with
          | castVote p v voter now =>
              obtain ⟨-, -, hvnv, -, hvframe, hvsum, -, -, -, -, -, -,
                  hvhv, -, -, -, -⟩ := vote_ok_shape s s₁ p v voter now ha
              by_cases hp : p = pid
              · subst hp
                have hsv : succVoters s p (Op.castVote p v voter now ::
                    ops) = voter :: succVoters s₁ p ops := by
                  simp only [succVoters]
                  rw [if_pos (show _ ∧ _ from by simp [hok]), hstep]
                have hnotin : voter ∉ l := by
                  intro hm
                  have hv' := (h3 voter).2 hm
                  rw [hvnv] at hv'
                  exact Bool.noConfusion hv'
                have h1' : (s₁.proposals p).yesVotes +
                    (s₁.proposals p).noVotes = (l ++ [voter]).length := by
                  rw [hvsum, h1]
                  simp
                have h2' : (l ++ [voter]).Nodup := by
                  simp [List.nodup_append, h2, hnotin]
                have h3' : ∀ a, s₁.hasVoted p a = true ↔
                    a ∈ l ++ [voter] := by
                  intro a
                  rw [hvhv p a]
                  by_cases hav : a = voter
                  · simp [hav]
                  · simp [hav, h3 a]
                have happ := ih s₁ (l ++ [voter]) hinv h1' h2' h3'
                rw [e3, hsv,
                  show l ++ voter :: succVoters s₁ p ops =
                    (l ++ [voter]) ++ succVoters s₁ p ops by simp]
                exact happ
              · have hsv : succVoters s pid (Op.castVote p v voter now ::
                    ops) = succVoters s₁ pid ops := by
                  simp only [succVoters]
                  rw [if_neg fun hcon => hp hcon.1, hstep]
                have hyes : (s₁.proposals pid).yesVotes =
                    (s.proposals pid).yesVotes := by
                  rw [hvframe pid fun h => hp h.symm]
                have hno : (s₁.proposals pid).noVotes =
                    (s.proposals pid).noVotes := by
                  rw [hvframe pid fun h => hp h.symm]
                have hhv : ∀ a, s₁.hasVoted pid a = s.hasVoted pid a := by
                  intro a
                  rw [hvhv pid a, if_neg fun hcon => hp hcon.1.symm]
                obtain ⟨h1', h3'⟩ := voterRel_transfer s s₁ pid l hyes hno
                  hhv h1 h3
                rw [e3, hsv]
                exact ih s₁ l hinv h1' h2 h3'
          | create pn pi d ed env demo cr fe g now =>
              have ha' : (createProposal s pn pi d ed env demo cr fe g
                  now).map Prod.fst = .ok s₁ := ha
              cases hc : createProposal s pn pi d ed env demo cr fe g
                  now with
              | error e =>
                  rw [hc] at ha'
                  exact absurd ha' (by simp [Except.map])
              | ok pr =>
                  rw [hc] at ha'
                  obtain ⟨s₂, rid⟩ := pr
                  simp only [Except.map, Except.ok.injEq] at ha'
                  subst ha'
                  obtain ⟨hrid, -, hhvc, -, -, -, hframe, hslot, -, -, -,
                      -⟩ := createProposal_ok_shape s s₂ pn pi d ed env
                    demo cr fe g now rid hc
                  have hsv : succVoters s pid (Op.create pn pi d ed env
                      demo cr fe g now :: ops) =
                      succVoters s₂ pid ops := by
                    rw [show succVoters s pid (Op.create pn pi d ed env
                      demo cr fe g now :: ops) =
                      succVoters (step s (Op.create pn pi d ed env demo cr
                        fe g now)) pid ops from rfl, hstep]
                  by_cases hq : pid = s.proposalCounter + 1
                  · have hzero : s.proposals pid = Proposal.zero :=
                      hs.1 pid (by omega)
                    have hl : l = [] := by
                      rw [← List.length_eq_zero, ← h1, hzero]
                      rfl
                    subst hl
                    have h1' : (s₂.proposals pid).yesVotes +
                        (s₂.proposals pid).noVotes =
                        ([] : List Addr).length := by
                      rw [hq, hslot]
                      rfl
                    have h3' : ∀ a, s₂.hasVoted pid a = true ↔
                        a ∈ ([] : List Addr) := by
                      intro a
                      rw [hhvc]
                      exact h3 a
                    have happ := ih s₂ [] hinv h1' List.nodup_nil h3'
                    rw [e3, hsv]
                    exact happ
                  · have hyes : (s₂.proposals pid).yesVotes =
                        (s.proposals pid).yesVotes := by
                      rw [hframe pid hq]
                    have hno : (s₂.proposals pid).noVotes =
                        (s.proposals pid).noVotes := by
                      rw [hframe pid hq]
                    have hhv : ∀ a, s₂.hasVoted pid a =
                        s.hasVoted pid a := by
                      intro a
                      rw [hhvc]
                    obtain ⟨h1', h3'⟩ := voterRel_transfer s s₂ pid l hyes
                      hno hhv h1 h3
                    rw [e3, hsv]
                    exact ih s₂ l hinv h1' h2 h3'
          | updateStatus sender p now =>
              obtain ⟨-, -, -, -, huframe, -, -, huyes, huno, -, -, -, -,
                  huhv, -, -, -, -, -⟩ :=
                updateProposalStatus_ok_shape s s₁ sender p now ha
              have hsv : succVoters s pid (Op.updateStatus sender p now ::
                  ops) = succVoters s₁ pid ops := by
                rw [show succVoters s pid (Op.updateStatus sender p now ::
                  ops) = succVoters (step s (Op.updateStatus sender p
                    now)) pid ops from rfl, hstep]
              have hyes : (s₁.proposals pid).yesVotes =
                  (s.proposals pid).yesVotes := by
                by_cases hqp : pid = p
                · subst hqp; exact huyes
                · rw [huframe pid hqp]
              have hno : (s₁.proposals pid).noVotes =
                  (s.proposals pid).noVotes := by
                by_cases hqp : pid = p
                · subst hqp; exact huno
                · rw [huframe pid hqp]
              have hhv : ∀ a, s₁.hasVoted pid a = s.hasVoted pid a := by
                intro a
                rw [huhv]
              obtain ⟨h1', h3'⟩ := voterRel_transfer s s₁ pid l hyes hno
                hhv h1 h3
              rw [e3, hsv]
              exact ih s₁ l hinv h1' h2 h3'
          | forceClose sender p st =>
              obtain ⟨-, -, -, huframe, -, -, huyes, huno, -, -, -, -,
                  huhv, -, -, -, -, -⟩ :=
                forceCloseProposal_ok_shape s s₁ sender p st ha
              have hsv : succVoters s pid (Op.forceClose sender p st ::
                  ops) = succVoters s₁ pid ops := by
                rw [show succVoters s pid (Op.forceClose sender p st ::
                  ops) = succVoters (step s (Op.forceClose sender p st))
                    pid ops from rfl, hstep]
              have hyes : (s₁.proposals pid).yesVotes =
                  (s.proposals pid).yesVotes := by
                by_cases hqp : pid = p
                · subst hqp; exact huyes
                · rw [huframe pid hqp]
              have hno : (s₁.proposals pid).noVotes =
                  (s.proposals pid).noVotes := by
                by_cases hqp : pid = p
                · subst hqp; exact huno
                · rw [huframe pid hqp]
              have hhv : ∀ a, s₁.hasVoted pid a = s.hasVoted pid a := by
                intro a
                rw [huhv]
              obtain ⟨h1', h3'⟩ := voterRel_transfer s s₁ pid l hyes hno
                hhv h1 h3
              rw [e3, hsv]
              exact ih s₁ l hinv h1' h2 h3'
          | setGoal sender p g =>
              obtain ⟨-, -, -, huframe, -, -, -, huyes, huno, -, -, -,
                  huhv, -, -, -, -, -⟩ :=
                setFundingGoal_ok_shape s s₁ sender p g ha
              have hsv : succVoters s pid (Op.setGoal sender p g :: ops) =
                  succVoters s₁ pid ops := by
                rw [show succVoters s pid (Op.setGoal sender p g :: ops) =
                  succVoters (step s (Op.setGoal sender p g)) pid ops from
                    rfl, hstep]
              have hyes : (s₁.proposals pid).yesVotes =
                  (s.proposals pid).yesVotes := by
                by_cases hqp : pid = p
                · subst hqp; exact huyes
                · rw [huframe pid hqp]
              have hno : (s₁.proposals pid).noVotes =
                  (s.proposals pid).noVotes := by
                by_cases hqp : pid = p
                · subst hqp; exact huno
                · rw [huframe pid hqp]
              have hhv : ∀ a, s₁.hasVoted pid a = s.hasVoted pid a := by
                intro a
                rw [huhv]
              obtain ⟨h1', h3'⟩ := voterRel_transfer s s₁ pid l hyes hno
                hhv h1 h3
              rw [e3, hsv]
              exact ih s₁ l hinv h1' h2 h3'
          | donate sender vl now p =>
              obtain ⟨-, -, -, -, huframe, -, -, -, -, huyes, huno, -, -,
                  -, -, -, -, huhv, -, -, -⟩ :=
                donateToProposal_ok_shape s s₁ sender vl now p ha
              have hsv : succVoters s pid (Op.donate sender vl now p ::
                  ops) = succVoters s₁ pid ops := by
                rw [show succVoters s pid (Op.donate sender vl now p ::
                  ops) = succVoters (step s (Op.donate sender vl now p))
                    pid ops from rfl, hstep]
              have hyes : (s₁.proposals pid).yesVotes =
                  (s.proposals pid).yesVotes := by
                by_cases hqp : pid = p
                · subst hqp; exact huyes
                · rw [huframe pid hqp]
              have hno : (s₁.proposals pid).noVotes =
                  (s.proposals pid).noVotes := by
                by_cases hqp : pid = p
                · subst hqp; exact huno
                · rw [huframe pid hqp]
              have hhv : ∀ a, s₁.hasVoted pid a = s.hasVoted pid a := by
                intro a
                rw [huhv]
              obtain ⟨h1', h3'⟩ := voterRel_transfer s s₁ pid l hyes hno
                hhv h1 h3
              rw [e3, hsv]
              exact ih s₁ l hinv h1' h2 h3'
          | withdraw sender p r tok =>
              have ha' : (withdrawFunds s sender p r tok).map Prod.fst =
                  .ok s₁ := ha
              cases hw : withdrawFunds s sender p r tok with
              | error e =>
                  rw [hw] at ha'
                  exact absurd ha' (by simp [Except.map])
              | ok pr =>
                  rw [hw] at ha'
                  obtain ⟨s₂, amt⟩ := pr
                  simp only [Except.map, Except.ok.injEq] at ha'
                  subst ha'
                  obtain ⟨-, -, -, -, -, huframe, -, -, -, -, huyes, huno,
                      -, -, huhv, -, -, -, -, -⟩ :=
                    withdrawFunds_ok_shape s s₂ sender p r tok amt hw
                  have hsv : succVoters s pid (Op.withdraw sender p r tok
                      :: ops) = succVoters s₂ pid ops := by
                    rw [show succVoters s pid (Op.withdraw sender p r tok
                      :: ops) = succVoters (step s (Op.withdraw sender p r
                        tok)) pid ops from rfl, hstep]
                  have hyes : (s₂.proposals pid).yesVotes =
                      (s.proposals pid).yesVotes := by
                    by_cases hqp : pid = p
                    · subst hqp; exact huyes
                    · rw [huframe pid hqp]
                  have hno : (s₂.proposals pid).noVotes =
                      (s.proposals pid).noVotes := by
                    by_cases hqp : pid = p
                    · subst hqp; exact huno
                    · rw [huframe pid hqp]
                  have hhv : ∀ a, s₂.hasVoted pid a = s.hasVoted pid a := by
                    intro a
                    rw [huhv]
                  obtain ⟨h1', h3'⟩ := voterRel_transfer s s₂ pid l hyes
                    hno hhv h1 h3
                  rw [e3, hsv]
                  exact ih s₂ l hinv h1' h2 h3'

/-- On a proposal that is not `Active`, `vote` always reverts. -/
lemma vote_fails_nonactive (s : CState) (pid : Nat) (v : Bool)
    (voter : Addr) (now : Nat)
    (hna : (s.proposals pid).status ≠ .Active) :
    opOk s (.castVote pid v voter now) = false := by
  simp only [opOk, applyOp]
  unfold vote
  by_cases h0 : (s.proposals pid).id = 0
  · rw [if_pos h0]
  · rw [if_neg h0, if_pos hna]

/-- Once a proposal has left `Active` (in an invariant-respecting state),
no transaction changes its tallies, and its status never returns to
`Active`. -/
lemma frozen_step (s : CState) (op : Op) (pid : Nat) (hs : Inv s)
    (hna : (s.proposals pid).status ≠ .Active) :
    ((step s op).proposals pid).yesVotes = (s.proposals pid).yesVotes ∧
    ((step s op).proposals pid).noVotes = (s.proposals pid).noVotes ∧
    ((step s op).proposals pid).status ≠ .Active := by
  cases ha : applyOp s op with
  | error e =>
      rw [step_of_error s op e ha]
      exact ⟨rfl, rfl, hna⟩
  | ok s₁ =>
      rw [step_of_ok s s₁ op ha]
      cases op with
      | create pn pi d ed env demo cr fe g now =>
          have ha' : (createProposal s pn pi d ed env demo cr fe g
              now).map Prod.fst = .ok s₁ := ha
          cases hc : createProposal s pn pi d ed env demo cr fe g now with
          | error e =>
              rw [hc] at ha'
              exact absurd ha' (by simp [Except.map])
          | ok pr =>
              rw [hc] at ha'
              obtain ⟨s₂, rid⟩ := pr
              simp only [Except.map, Except.ok.injEq] at ha'
              subst ha'
              obtain ⟨-, -, -, -, -, -, hframe, -, -, -, -, -⟩ :=
                createProposal_ok_shape s s₂ pn pi d ed env demo cr fe g
                  now rid hc
              have hple : ¬ (pid > s.proposalCounter) := by
                intro hgt
                rw [hs.1 pid hgt] at hna
                exact hna rfl
              have hq : pid ≠ s.proposalCounter + 1 := by omega
              rw [hframe pid hq]
              exact ⟨rfl, rfl, hna⟩
      | castVote p v voter now =>
          obtain ⟨-, hvact, -, -, hvframe, -, -, -, -, -, -, -, -, -, -,
              -, -⟩ := vote_ok_shape s s₁ p v voter now ha
          have hp : p ≠ pid := fun h => hna (h ▸ hvact)
          rw [hvframe pid fun hh => hp hh.symm]
          exact ⟨rfl, rfl, hna⟩
      | updateStatus sender p now =>
          obtain ⟨-, -, huact, -, huframe, -, -, -, -, -, -, -, -, -, -,
              -, -, -, -⟩ := updateProposalStatus_ok_shape s s₁ sender p
            now ha
          have hp : p ≠ pid := fun h => hna (h ▸ huact)
          rw [huframe pid fun hh => hp hh.symm]
          exact ⟨rfl, rfl, hna⟩
      | forceClose sender p st =>
          obtain ⟨-, -, huact, huframe, -, -, -, -, -, -, -, -, -, -, -,
              -, -, -⟩ := forceCloseProposal_ok_shape s s₁ sender p st ha
          have hp : p ≠ pid := fun h => hna (h ▸ huact)
          rw [huframe pid fun hh => hp hh.symm]
          exact ⟨rfl, rfl, hna⟩
      | setGoal sender p g =>
          obtain ⟨-, -, -, huframe, -, hustat, -, huyes, huno, -, -, -, -,
              -, -, -, -, -⟩ := setFundingGoal_ok_shape s s₁ sender p g ha
          by_cases hqp : pid = p
          · subst hqp
            exact ⟨huyes, huno, by rw [hustat]; exact hna⟩
          · rw [huframe pid hqp]
            exact ⟨rfl, rfl, hna⟩
      | donate sender vl now p =>
          obtain ⟨-, -, -, -, huframe, -, hustat, -, -, huyes, huno, -, -,
              -, -, -, -, -, -, -, -⟩ :=
            donateToProposal_ok_shape s s₁ sender vl now p ha
          by_cases hqp : pid = p
          · subst hqp
            exact ⟨huyes, huno, by rw [hustat]; exact hna⟩
          · rw [huframe pid hqp]
            exact ⟨rfl, rfl, hna⟩
      | withdraw sender p r tok =>
          have ha' : (withdrawFunds s sender p r tok).map Prod.fst =
              .ok s₁ := ha
          cases hw : withdrawFunds s sender p r tok with
          | error e =>
              rw [hw] at ha'
              exact absurd ha' (by simp [Except.map])
          | ok pr =>
              rw [hw] at ha'
              obtain ⟨s₂, amt⟩ := pr
              simp only [Except.map, Except.ok.injEq] at ha'
              subst ha'
              obtain ⟨-, -, -, -, -, huframe, -, hustat, -, -, huyes,
                  huno, -, -, -, -, -, -, -, -⟩ :=
                withdrawFunds_ok_shape s s₂ sender p r tok amt hw
              by_cases hqp : pid = p
              · subst hqp
                exact ⟨huyes, huno, by rw [hustat]; exact hna⟩
              · rw [huframe pid hqp]
                exact ⟨rfl, rfl, hna⟩

/-- C6: in every reachable state, `yesCount + noCount` of a proposal
equals the number of distinct voters whose `vote` transaction on it
succeeded along the trace (the successful-voter list is duplicate-free);
and once the status has left `Active`, a further `vote` always fails and
no transaction whatsoever changes the tallies or reactivates the
proposal. -/
theorem c6_tally_accounting (deployer : Addr) (ops : List Op) (pid : Nat)
    (op : Op) (v : Bool) (voter : Addr) (now : Nat) :
    ((execTrace deployer ops).proposals pid).yesVotes +
        ((execTrace deployer ops).proposals pid).noVotes =
      (succVoters (initState deployer) pid ops).length ∧
    (succVoters (initState deployer) pid ops).Nodup ∧
    (((execTrace deployer ops).proposals pid).status ≠ .Active →
      opOk (execTrace deployer ops) (.castVote pid v voter now) = false ∧
      ((step (execTrace deployer ops) op).proposals pid).yesVotes =
        ((execTrace deployer ops).proposals pid).yesVotes ∧
      ((step (execTrace deployer ops) op).proposals pid).noVotes =
        ((execTrace deployer ops).proposals pid).noVotes ∧
      ((step (execTrace deployer ops) op).proposals pid).status ≠
        .Active) := by
  obtain ⟨ha, hb, -⟩ := succVoters_spec pid ops (initState deployer) []
    (inv_init deployer) rfl List.nodup_nil (by intro a; simp [initState])
  refine ⟨by simpa using ha, by simpa using hb, ?_⟩
  intro hna
  have hf := frozen_step (execTrace deployer ops) op pid
    (inv_execTrace deployer ops) hna
  exact ⟨vote_fails_nonactive _ pid v voter now hna, hf.1, hf.2.1, hf.2.2⟩

/-- C6 witness: after one yes and one no vote and a deadline resolution
(tie declines), the tallies sum to the two distinct successful voters;
the proposal is no longer `Active`, a further vote fails, and another
transaction leaves the tallies untouched. -/
theorem c6_tally_accounting_witness :
    ((execTrace 0 [opOpen, .castVote 1 true 11 10, .castVote 1 false 12
        20, .updateStatus 0 1 101]).proposals 1).yesVotes +
      ((execTrace 0 [opOpen, .castVote 1 true 11 10, .castVote 1 false 12
        20, .updateStatus 0 1 101]).proposals 1).noVotes = 2 ∧
    (succVoters (initState 0) 1 [opOpen, .castVote 1 true 11 10,
      .castVote 1 false 12 20, .updateStatus 0 1 101]).Nodup ∧
    opOk (execTrace 0 [opOpen, .castVote 1 true 11 10, .castVote 1 false
      12 20, .updateStatus 0 1 101]) (.castVote 1 true 13 30) = false ∧
    ((step (execTrace 0 [opOpen, .castVote 1 true 11 10, .castVote 1
        false 12 20, .updateStatus 0 1 101]) (.castVote 1 true 13
        30)).proposals 1).yesVotes =
      ((execTrace 0 [opOpen, .castVote 1 true 11 10, .castVote 1 false 12
        20, .updateStatus 0 1 101]).proposals 1).yesVotes := by
  have h := c6_tally_accounting 0 [opOpen, .castVote 1 true 11 10,
    .castVote 1 false 12 20, .updateStatus 0 1 101] 1
    (.castVote 1 true 13 30) true 13 30
  have h3 := h.2.2 (by decide)
  exact ⟨h.1.trans (by decide), h.2.1, h3.1, h3.2.1⟩

/-! ## Donation accounting (towards C8) -/

lemma donateMany_ok_shape (pid : Nat) (ds : List (Addr × Nat × Nat)) :
    ∀ (s s' : CState), donateMany s pid ds = .ok s' →
    ((s'.proposals pid).totalFundsRaised =
      (s.proposals pid).totalFundsRaised +
        (ds.map fun d => d.2.1).sum) ∧
    (s'.proposalDonations pid = s.proposalDonations pid ++
      ds.map fun d => (⟨d.1, d.2.1, d.2.2⟩ : Donation)) ∧
    (∀ a, s'.userDonationTotal pid a = s.userDonationTotal pid a +
      ((ds.filter fun d => d.1 == a).map fun d => d.2.1).sum) := by
  induction ds with
  | nil =>
      intro s s' h
      simp only [donateMany, Except.ok.injEq] at h
      subst h
      simp
  | cons d ds ih =>
      intro s s' h
      obtain ⟨dn, value, now⟩ := d
      simp only [donateMany] at h
      cases hd : donateToProposal s dn value now pid with
      | error e =>
          rw [hd] at h
          exact Except.noConfusion h
      | ok s₁ =>
          rw [hd] at h
          obtain ⟨-, -, -, -, -, hraised, -, -, -, -, -, -, -, hdon, -,
              htot, htframe, -, -, -, -⟩ :=
            donateToProposal_ok_shape s s₁ dn value now pid hd
          obtain ⟨ih1, ih2, ih3⟩ := ih s₁ s' h
          refine ⟨?_, ?_, ?_⟩
          · rw [ih1, hraised]
            simp only [List.map_cons, List.sum_cons]
            omega
          · rw [ih2, hdon]
            simp
          · intro a
            rw [ih3 a]
            by_cases hda : dn = a
            · subst hda
              rw [htot]
              simp only [List.filter_cons, beq_self_eq_true, if_true,
                List.map_cons, List.sum_cons]
              omega
            · rw [htframe pid a fun hc => hda hc.2.symm]
              simp only [List.filter_cons]
              rw [if_neg (by simpa using hda)]

/-- C8: a donation on a proposal whose funding is disabled always reverts
with the state unchanged; and a batch of successful donations adds the
sum of the amounts to `totalRaised`, appends the records in order to the
donation list, and adds each donor's amounts to that donor's running
total. -/
theorem c8_donation_accounting (s : CState) (pid : Nat)
    (sender donor : Addr) (value now : Nat)
    (ds : List (Addr × Nat × Nat)) (hok : donateManyOk s pid ds = true) :
    ((s.proposals pid).fundingEnabled = false →
      opOk s (.donate sender value now pid) = false ∧
      step s (.donate sender value now pid) = s) ∧
    ((donateManyState s pid ds).proposals pid).totalFundsRaised =
      (s.proposals pid).totalFundsRaised +
        (ds.map fun d => d.2.1).sum ∧
    (donateManyState s pid ds).proposalDonations pid =
      s.proposalDonations pid ++
        ds.map (fun d => (⟨d.1, d.2.1, d.2.2⟩ : Donation)) ∧
    (donateManyState s pid ds).userDonationTotal pid donor =
      s.userDonationTotal pid donor +
        ((ds.filter fun d => d.1 == donor).map fun d => d.2.1).sum := by
  have hw : ∃ s', donateMany s pid ds = .ok s' := by
    unfold donateManyOk at hok
    cases hm : donateMany s pid ds with
    | ok s' => exact ⟨s', rfl⟩
    | error e => rw [hm] at hok; exact absurd hok (by simp)
  obtain ⟨s', hm⟩ := hw
  have hstate : donateManyState s pid ds = s' := by
    unfold donateManyState
    rw [hm]
  obtain ⟨hA, hB, hC⟩ := donateMany_ok_shape pid ds s s' hm
  refine ⟨?_, by rw [hstate]; exact hA, by rw [hstate]; exact hB,
    by rw [hstate]; exact hC donor⟩
  intro hfe
  have herr : ∃ e, donateToProposal s sender value now pid = .error e := by
    unfold donateToProposal
    by_cases h0 : (s.proposals pid).id = 0
    · exact ⟨_, by rw [if_pos h0]⟩
    · rw [if_neg h0]
      by_cases hst : (s.proposals pid).status ≠ .Accepted
      · exact ⟨_, by rw [if_pos hst]⟩
      · rw [if_neg hst, if_pos hfe]
        exact ⟨_, rfl⟩
  obtain ⟨e, he⟩ := herr
  constructor
  · simp only [opOk, applyOp]
    rw [he]
  · simp only [step, applyOp]
    rw [he]

/-- C8 witness: on the accepted proposal with funding disabled a donation
fails; on the funded proposal, the batch 30 + 20 + 5 (donors 7, 8, 7)
yields `totalRaised = 55`, the three records in order, and a running
total of 35 for donor 7. -/
theorem c8_donation_accounting_witness :
    opOk (execTrace 0 traceAcceptedNoGoal) (.donate 7 30 20 1) = false ∧
    ((donateManyState (execTrace 0 traceAccepted) 1
        [(7, 30, 20), (8, 20, 21), (7, 5, 22)]).proposals
        1).totalFundsRaised = 55 ∧
    (donateManyState (execTrace 0 traceAccepted) 1
        [(7, 30, 20), (8, 20, 21), (7, 5, 22)]).proposalDonations 1 =
      [⟨7, 30, 20⟩, ⟨8, 20, 21⟩, ⟨7, 5, 22⟩] ∧
    (donateManyState (execTrace 0 traceAccepted) 1
        [(7, 30, 20), (8, 20, 21), (7, 5, 22)]).userDonationTotal 1 7 =
      35 := by
  have h1 := c8_donation_accounting (execTrace 0 traceAcceptedNoGoal) 1 7
    7 30 20 [] (by decide)
  have h2 := c8_donation_accounting (execTrace 0 traceAccepted) 1 7 7 30
    20 [(7, 30, 20), (8, 20, 21), (7, 5, 22)] (by decide)
  exact ⟨(h1.1 (by decide)).1, h2.2.1.trans (by decide),
    h2.2.2.1.trans (by decide), h2.2.2.2.trans (by decide)⟩

end ParkPulse
